import Mathlib

/-!
Shallow embedding of the filter-list lifecycle engine in `home/filter.go`
(AdGuardHome fork).  Byte streams are modelled as `List Nat` (each entry one
byte), Go strings that are only compared for equality as `String`, Unix
timestamps as `Nat` (`0` stands for Go's zero `time.Time`), and `uint32`
arithmetic as `Nat` with explicit masking where the source relies on it.
Filesystem and network effects are passed in explicitly: the body fetched for
a URL is given by an oracle `fetch : String -> FetchResult`, and the result of
`filter.load()` (which reads the on-disk content file) by an oracle
`loadFn : filter -> Option (Nat × Nat × Nat)`.
-/

namespace AdGuard

/-- The `filter` struct of `home/filter.go` (field order as in the source;
`dnsfilter.Filter` contributes the `ID` field used here). -/
structure filter where
  Enabled : Bool
  URL : String
  Name : List Nat
  RulesCount : Nat
  LastUpdated : Nat
  checksum : Nat
  white : Bool
  ID : Int
  deriving DecidableEq, Repr

/-- The part of the global `config` used by this module: the block-list
collection `config.Filters` and the allow-list collection
`config.WhitelistFilters`. -/
structure Config where
  Filters : List filter
  WhitelistFilters : List filter
  deriving DecidableEq, Repr

def statusFound : Nat := 1
def statusEnabledChanged : Nat := 2
def statusURLChanged : Nat := 4
def statusURLExists : Nat := 8
def statusUpdateRequired : Nat := 0x10

def FilterRefreshForce : Nat := 1
def FilterRefreshAllowlists : Nat := 2
def FilterRefreshBlocklists : Nat := 4

/-- `filterExistsNoLock`: true if a filter with this URL exists in either
collection. -/
def filterExistsNoLock (cfg : Config) (url : String) : Bool :=
  cfg.Filters.any (fun f => f.URL == url) ||
    cfg.WhitelistFilters.any (fun f => f.URL == url)

/-- `filterAdd`: returns `false` without mutation when a filter with this URL
exists, otherwise appends to the collection selected by `f.white`. -/
def filterAdd (cfg : Config) (f : filter) : Bool × Config :=
  if filterExistsNoLock cfg f.URL then (false, cfg)
  else if f.white then
    (true, { cfg with WhitelistFilters := cfg.WhitelistFilters ++ [f] })
  else
    (true, { cfg with Filters := cfg.Filters ++ [f] })

/-- Byte predicate of `isPrintableText`: the source keeps a byte `c` when
`(c >= ' ' && c != 0x7f) || c == '\n' || c == '\r' || c == '\t'`.  Note that
every byte `0x80..0xff` satisfies `c >= ' ' && c != 0x7f`. -/
def printableByte (c : Nat) : Bool :=
  (32 ≤ c && c != 0x7f) || c == 10 || c == 13 || c == 9

/-- `isPrintableText` from the source: all bytes pass `printableByte`. -/
def isPrintableText (data : List Nat) : Bool :=
  data.all printableByte

/-- ASCII lower-casing of a byte, modelling `strings.ToLower` for the ASCII
search patterns used by the HTML sniff (`"<html"`, `"<!doctype"`). -/
def toLowerByte (c : Nat) : Nat :=
  if 65 ≤ c ∧ c ≤ 90 then c + 32 else c

def isPrefixOfB : List Nat → List Nat → Bool
  | [], _ => true
  | _ :: _, [] => false
  | a :: as, b :: bs => a == b && isPrefixOfB as bs

/-- Substring search, modelling `strings.Index(s, pat) >= 0`. -/
def containsSeq (pat : List Nat) : List Nat → Bool
  | [] => pat.isEmpty
  | c :: rest => isPrefixOfB pat (c :: rest) || containsSeq pat rest

/-- Bytes of `"<html"`. -/
def htmlPat : List Nat := [60, 104, 116, 109, 108]

/-- Bytes of `"<!doctype"`. -/
def doctypePat : List Nat := [60, 33, 100, 111, 99, 116, 121, 112, 101]

def firstChunkSize : Nat := 4 * 1024

/-- Contents of the `firstChunk` buffer at the moment the sniff test fires in
`updateIntl`: the buffer is allocated zeroed with `make([]byte, 4*1024)`, the
first `min 4096 (length body)` bytes of the body are copied into it, and the
test runs on the whole buffer when it is full or the stream hits EOF. -/
def sniffBuffer (body : List Nat) : List Nat :=
  body.take firstChunkSize ++ List.replicate (firstChunkSize - body.length) 0

/-- The two content-sniffing checks of `updateIntl`, in source order:
printable-text first, then the case-insensitive HTML search; `none` means the
body passes both. -/
def sniffCheck (body : List Nat) : Option String :=
  let chunk := sniffBuffer body
  if !isPrintableText chunk then some "Data contains non-printable characters"
  else
    let s := chunk.map toLowerByte
    if containsSeq htmlPat s || containsSeq doctypePat s then
      some "Data is HTML, not plain text"
    else none

/-- Reflected IEEE CRC-32 polynomial used by `crc32.IEEETable`. -/
def crc32Poly : Nat := 0xEDB88320

/-- One bit step of the CRC-32 table construction. -/
def crc32Step (crc : Nat) : Nat :=
  if crc % 2 == 1 then (crc / 2) ^^^ crc32Poly else crc / 2

/-- Entry `i` of `crc32.IEEETable`. -/
def crc32TableEntry (i : Nat) : Nat :=
  crc32Step^[8] i

/-- One byte of `crc32.Update`'s inner loop:
`crc = tab[byte(crc)^v] ^ (crc >> 8)`. -/
def crc32UpdateByte (crc b : Nat) : Nat :=
  crc32TableEntry ((crc ^^^ b) % 256) ^^^ (crc / 256)

/-- `crc32.Update(crc, crc32.IEEETable, data)`: complement (32-bit), fold the
bytes, complement again. -/
def crc32Update (crc : Nat) (data : List Nat) : Nat :=
  (data.foldl crc32UpdateByte (crc ^^^ 0xFFFFFFFF)) ^^^ 0xFFFFFFFF

/-- ASCII whitespace trimmed by `strings.TrimSpace` (the bodies considered
here are byte strings; the ASCII space classes are space, TAB, LF, VT, FF,
CR). -/
def isSpaceByte (c : Nat) : Bool :=
  c == 32 || c == 9 || c == 10 || c == 11 || c == 12 || c == 13

def trimSpace (l : List Nat) : List Nat :=
  ((l.dropWhile isSpaceByte).reverse.dropWhile isSpaceByte).reverse

/-- Bytes of `"! Title:"`. -/
def titleHead : List Nat := [33, 32, 84, 105, 116, 108, 101, 58]

/-- The regexp `^! Title: +(.*)$` applied to a (trimmed, newline-free) line:
the line must start with `"! Title:"` followed by at least one space; the
greedy ` +` swallows all following spaces and `(.*)` captures the rest. -/
def titleMatch (l : List Nat) : Option (List Nat) :=
  if isPrefixOfB titleHead l then
    let rest := l.drop titleHead.length
    match rest with
    | [] => none
    | c :: _ => if c == 32 then some (rest.dropWhile (fun b => b == 32)) else none
  else none

/-- Splits a byte stream into newline-terminated lines, each including its
final `'\n'`.  A trailing fragment with no `'\n'` is dropped: in the source,
`bufio.ReadString('\n')` returns it together with `io.EOF` and the loop of
`parseFilterContents` breaks before processing it. -/
def terminatedLinesAux : List Nat → List Nat → List (List Nat)
  | [], _ => []
  | c :: cs, acc =>
    if c == 10 then (acc.reverse ++ [10]) :: terminatedLinesAux cs []
    else terminatedLinesAux cs (c :: acc)

def terminatedLines (data : List Nat) : List (List Nat) :=
  terminatedLinesAux data []

/-- State of the loop in `parseFilterContents`:
`(rulesCount, checksum, name, seenTitle)`. -/
def parseStep (st : Nat × Nat × List Nat × Bool) (line : List Nat) :
    Nat × Nat × List Nat × Bool :=
  let cs := crc32Update st.2.1 line
  let t := trimSpace line
  if t.isEmpty then (st.1, cs, st.2.2.1, st.2.2.2)
  else if t.head? == some 33 then
    match titleMatch t with
    | some cap =>
      if !st.2.2.2 then (st.1, cs, cap, true) else (st.1, cs, st.2.2.1, st.2.2.2)
    | none => (st.1, cs, st.2.2.1, st.2.2.2)
  else (st.1 + 1, cs, st.2.2.1, st.2.2.2)

/-- `parseFilterContents`: returns `(rulesCount, checksum, name)` computed
from the newline-terminated lines of the data. -/
def parseFilterContents (data : List Nat) : Nat × Nat × List Nat :=
  let st := (terminatedLines data).foldl parseStep (0, 0, [], false)
  (st.1, st.2.1, st.2.2.1)

/-- Outcome of the network side of one fetch: `failure` covers transport
errors, non-200 statuses and mid-stream read errors (no filter field is
mutated in any of those cases); `success body` means the whole body was
delivered. -/
inductive FetchResult where
  | failure
  | success (body : List Nat)
  deriving DecidableEq, Repr

/-- `updateIntl`: returns the (possibly) updated filter, the `changed` flag
and whether the call succeeded (`ok = false` models a non-nil error).  Field
mutations happen only after a fully successful download that passes both
sniff checks and has a fresh checksum. -/
def updateIntl (f : filter) (res : FetchResult) : filter × Bool × Bool :=
  match res with
  | .failure => (f, false, false)
  | .success body =>
    match sniffCheck body with
    | some _ => (f, false, false)
    | none =>
      if f.checksum == (parseFilterContents body).2.1 then (f, false, true)
      else if (parseFilterContents body).2.2 != [] then
        ({ f with Name := (parseFilterContents body).2.2,
                  RulesCount := (parseFilterContents body).1,
                  checksum := (parseFilterContents body).2.1 }, true, true)
      else
        ({ f with RulesCount := (parseFilterContents body).1,
                  checksum := (parseFilterContents body).2.1 }, true, true)

/-- `filter.update()`: runs `updateIntl` and sets `LastUpdated` to the
current time unconditionally, also on failure (the source then additionally
touches the on-disk file's mtime, a pure filesystem effect). -/
def update (f : filter) (res : FetchResult) (now : Nat) : filter × Bool × Bool :=
  ({ (updateIntl f res).1 with LastUpdated := now },
   (updateIntl f res).2.1, (updateIntl f res).2.2)

/-- The snapshot copied under the read lock in `refreshFiltersArray`: a
zero-valued `filter` with only `ID`, `URL`, `Name` and `checksum` set. -/
def snapshotFilter (f : filter) : filter :=
  { Enabled := false, URL := f.URL, Name := f.Name, RulesCount := 0,
    LastUpdated := 0, checksum := f.checksum, white := false, ID := f.ID }

/-- Selection test of `refreshFiltersArray`: enabled, and not skipped by the
expiry check `!force && expireTime > now`. -/
def dueFilter (force : Bool) (now intervalHours : Nat) (f : filter) : Bool :=
  f.Enabled && (force || f.LastUpdated + intervalHours * 3600 ≤ now)

/-- Inner body of the commit loop: a live filter `f` is merged with snapshot
entry `uf` when `ID` and `URL` both match; it always receives
`uf.LastUpdated`, and `Name`/`RulesCount`/`checksum` only when `updated`.
The `Nat` is the contribution to `updateCount`. -/
def mergeOne (uf : filter) (updated : Bool) (f : filter) : filter × Nat :=
  if f.ID == uf.ID && f.URL == uf.URL then
    let f1 := { f with LastUpdated := uf.LastUpdated }
    if updated then
      ({ f1 with Name := uf.Name, RulesCount := uf.RulesCount,
                 checksum := uf.checksum }, 1)
    else (f1, 0)
  else (f, 0)

/-- One outer iteration of the commit loop: apply snapshot entry `p` to every
live filter. -/
def mergeStep (acc : List filter × Nat) (p : filter × Bool) : List filter × Nat :=
  let rs := acc.1.map (mergeOne p.1 p.2)
  (rs.map Prod.fst, acc.2 + (rs.map Prod.snd).sum)

/-- The full commit loop of `refreshFiltersArray`, returning the new live
collection and `updateCount`. -/
def merge (live : List filter) (ps : List (filter × Bool)) : List filter × Nat :=
  ps.foldl mergeStep (live, 0)

/-- The snapshot list built under the read lock of `refreshFiltersArray`
(`updateFilters` before the fetch loop). -/
def dueSnapshots (filters : List filter) (force : Bool)
    (snapNow intervalHours : Nat) : List filter :=
  (filters.filter (dueFilter force snapNow intervalHours)).map snapshotFilter

/-- The per-snapshot results of the fetch loop of `refreshFiltersArray`:
each entry is `(updated snapshot, changed flag, success flag)`. -/
def updateResults (filters : List filter) (force : Bool)
    (snapNow updNow intervalHours : Nat) (fetch : String → FetchResult) :
    List (filter × Bool × Bool) :=
  (dueSnapshots filters force snapNow intervalHours).map
    (fun uf => update uf (fetch uf.URL) updNow)

/-- `refreshFiltersArray`.  Returns
`(updateCount, newLiveCollection, updateFilters, updateFlags, netError)`;
the live collection is returned instead of being mutated in place.  `snapNow`
is the `time.Now()` taken for the expiry check, `updNow` the time stamped on
the snapshots by `update`.  The first branch is the empty-snapshot early
return, the second the total-failure (`nfail == len(updateFilters)`) early
return; otherwise the commit loop runs. -/
def refreshFiltersArray (filters : List filter) (force : Bool)
    (snapNow updNow intervalHours : Nat) (fetch : String → FetchResult) :
    Nat × List filter × List filter × List Bool × Bool :=
  if (dueSnapshots filters force snapNow intervalHours).isEmpty then
    (0, filters, [], [], false)
  else if ((updateResults filters force snapNow updNow intervalHours fetch).filter
             (fun r => !r.2.2)).length ==
          (updateResults filters force snapNow updNow intervalHours fetch).length then
    (0, filters, [], [], true)
  else
    ((merge filters ((updateResults filters force snapNow updNow intervalHours fetch).map
        (fun r => (r.1, r.2.1)))).2,
     (merge filters ((updateResults filters force snapNow updNow intervalHours fetch).map
        (fun r => (r.1, r.2.1)))).1,
     (updateResults filters force snapNow updNow intervalHours fetch).map (fun r => r.1),
     (updateResults filters force snapNow updNow intervalHours fetch).map (fun r => r.2.1),
     false)

/-- `refreshFiltersIfNecessary`: runs the per-collection refresh on the
collections selected by `flags` and reports total failure only when both
attempted scopes failed entirely.  (The call to `enableFilters` and the
removal of `.old` artifacts are external effects.) -/
def refreshFiltersIfNecessary (cfg : Config) (flags : Nat)
    (snapNow updNow intervalHours : Nat) (fetch : String → FetchResult) :
    Config × Nat × Bool :=
  let force := flags &&& FilterRefreshForce != 0
  let rb :=
    if flags &&& FilterRefreshBlocklists != 0 then
      let r := refreshFiltersArray cfg.Filters force snapNow updNow intervalHours fetch
      (r.1, r.2.1, r.2.2.2.2)
    else (0, cfg.Filters, false)
  let rw :=
    if flags &&& FilterRefreshAllowlists != 0 then
      let r := refreshFiltersArray cfg.WhitelistFilters force snapNow updNow intervalHours fetch
      (r.1, r.2.1, r.2.2.2.2)
    else (0, cfg.WhitelistFilters, false)
  let cfg1 : Config := { Filters := rb.2.1, WhitelistFilters := rw.2.1 }
  if rb.2.2 && rw.2.2 then (cfg1, 0, true)
  else (cfg1, rb.1 + rw.1, false)

/-- `refreshFilters(flags, important)`: `running` is the value of the atomic
`refreshStatus` observed by the compare-and-swap.  A plain request while a
cycle is running fails fast with the "already running" error and does no
work; otherwise the cycle runs and its network-failure flag is discarded. -/
def refreshFilters (cfg : Config) (flags : Nat) (important running : Bool)
    (snapNow updNow intervalHours : Nat) (fetch : String → FetchResult) :
    Config × Except String Nat :=
  if !important && running then
    (cfg, Except.error "Filters update procedure is already running")
  else
    let r := refreshFiltersIfNecessary cfg flags snapNow updNow intervalHours fetch
    (r.1, Except.ok r.2.1)

/-- Ceiling of the scheduler's sleep interval (`1 * 60 * 60` seconds). -/
def maxInterval : Nat := 1 * 60 * 60

/-- Initial value of `intval` in `periodicallyRefreshFilters`. -/
def initialInterval : Nat := 5

/-- Outcome of one iteration of the periodic loop: the cycle can be skipped
(update interval configured to 0, or the CAS on `refreshStatus` failed), or
it ran and reported whether a total network error occurred. -/
inductive CycleOutcome where
  | skipped
  | ran (isNetworkErr : Bool)
  deriving DecidableEq, Repr

/-- Interval update of one iteration of `periodicallyRefreshFilters`: a
non-failing completed cycle jumps to `maxInterval`, a failing one doubles the
interval and caps it, a skipped iteration leaves it unchanged. -/
def schedulerStep (intval : Nat) (o : CycleOutcome) : Nat :=
  match o with
  | .skipped => intval
  | .ran err =>
    if err then
      let d := intval * 2
      if d > maxInterval then maxInterval else d
    else maxInterval

/-- Interval after a sequence of iterations, starting from the initial 5
seconds. -/
def schedulerRun (outcomes : List CycleOutcome) : Nat :=
  outcomes.foldl schedulerStep initialInterval

/-- `loadFilters`' ID pass: every filter with `ID == 0` gets the next unique
ID from the shared counter (the content-loading part of `loadFilters` only
reads the on-disk file and is a filesystem effect that touches no ID). -/
def loadFiltersAssign : List filter → Int → List filter × Int
  | [], next => ([], next)
  | f :: fs, next =>
    if f.ID == 0 then
      let r := loadFiltersAssign fs (next + 1)
      ({ f with ID := next } :: r.1, r.2)
    else
      let r := loadFiltersAssign fs next
      (f :: r.1, r.2)

def deduplicateAux : List filter → List String → List filter
  | [], _ => []
  | f :: fs, seen =>
    if f.URL ∈ seen then deduplicateAux fs seen
    else f :: deduplicateAux fs (f.URL :: seen)

/-- `deduplicateFilters`: keeps the first filter for each URL, preserving
order (applied to the block-list collection only). -/
def deduplicateFilters (fs : List filter) : List filter :=
  deduplicateAux fs []

/-- `updateUniqueFilterID`: advances the counter past every ID seen. -/
def updateUniqueFilterID (next : Int) (fs : List filter) : Int :=
  fs.foldl (fun n f => if n < f.ID then f.ID + 1 else n) next

/-- `initFiltering` (the ID-relevant part): load both collections (assigning
IDs to zero-ID filters from the shared counter seeded with `seed`),
deduplicate the block-list collection, then advance the counter past both
collections' maxima. -/
def initFiltering (cfg : Config) (seed : Int) : Config × Int :=
  let rb := loadFiltersAssign cfg.Filters seed
  let rw := loadFiltersAssign cfg.WhitelistFilters rb.2
  let fs := deduplicateFilters rb.1
  let n3 := updateUniqueFilterID rw.2 fs
  let n4 := updateUniqueFilterID n3 rw.1
  ({ Filters := fs, WhitelistFilters := rw.1 }, n4)

/-- Second half of the `filterSetProperties` loop body: the enabled-state
comparison and toggle.  `loadFn` models `filter.load()`: `some (rc, cs, lu)`
is a successful read of the on-disk content file yielding `RulesCount`,
`checksum` and `LastUpdated` (the file's mtime); `none` is a read error, in
which case the source zeroes the metadata and marks an update required. -/
def enabledPart (loadFn : filter → Option (Nat × Nat × Nat)) (r : Nat)
    (f : filter) (newf : filter) : Nat × filter :=
  if f.Enabled == newf.Enabled then (r ||| statusFound, f)
  else if newf.Enabled then
    if (r ||| statusEnabledChanged) &&& statusURLChanged == 0 then
      match loadFn { f with Enabled := newf.Enabled } with
      | some lr =>
        ((r ||| statusEnabledChanged) ||| statusFound,
         { f with Enabled := newf.Enabled, RulesCount := lr.1,
                  checksum := lr.2.1, LastUpdated := lr.2.2 })
      | none =>
        ((r ||| statusEnabledChanged) ||| statusUpdateRequired ||| statusFound,
         { f with Enabled := newf.Enabled, LastUpdated := 0,
                  checksum := 0, RulesCount := 0 })
    else ((r ||| statusEnabledChanged) ||| statusFound, { f with Enabled := newf.Enabled })
  else
    ((r ||| statusEnabledChanged) ||| statusFound,
     { f with Enabled := newf.Enabled, RulesCount := 0, checksum := 0 })

/-- The `filterSetProperties` loop body once the filter with the given URL is
found.  `existsNewURL` is the value of `filterExistsNoLock(newf.URL)` at the
moment of the check; only `f.Name` has been written at that point, which
alters no URL, so it equals the check on the unmodified configuration. -/
def setPropsBody (loadFn : filter → Option (Nat × Nat × Nat)) (f0 : filter)
    (newf : filter) (existsNewURL : Bool) : Nat × filter :=
  if f0.URL == newf.URL then enabledPart loadFn 0 { f0 with Name := newf.Name } newf
  else if existsNewURL then (statusURLExists, { f0 with Name := newf.Name })
  else
    enabledPart loadFn (statusURLChanged ||| statusUpdateRequired)
      { f0 with Name := newf.Name, URL := newf.URL, RulesCount := 0,
                checksum := 0, LastUpdated := 0 } newf

/-- The loop of `filterSetProperties` over the selected collection: the first
filter whose URL matches is processed by `setPropsBody` and the loop returns;
filters before it are left untouched. -/
def setPropsList (loadFn : filter → Option (Nat × Nat × Nat))
    (existsNewURL : Bool) (url : String) (newf : filter) :
    List filter → Nat × List filter
  | [] => (0, [])
  | f :: rest =>
    if f.URL == url then
      let r := setPropsBody loadFn f newf existsNewURL
      (r.1, r.2 :: rest)
    else
      let r := setPropsList loadFn existsNewURL url newf rest
      (r.1, f :: r.2)

/-- `filterSetProperties(url, newf, whitelist)`: returns the status bit-set
and the new configuration. -/
def filterSetProperties (loadFn : filter → Option (Nat × Nat × Nat))
    (cfg : Config) (url : String) (newf : filter) (whitelist : Bool) :
    Nat × Config :=
  let existsNewURL := filterExistsNoLock cfg newf.URL
  if whitelist then
    let r := setPropsList loadFn existsNewURL url newf cfg.WhitelistFilters
    (r.1, { cfg with WhitelistFilters := r.2 })
  else
    let r := setPropsList loadFn existsNewURL url newf cfg.Filters
    (r.1, { cfg with Filters := r.2 })

/-- Byte class named by the specification: printable ASCII (0x20..0x7e) or
CR, LF, TAB.  This follows the spec's words, for comparison with the
source-derived `printableByte`, which additionally accepts every byte
`0x80..0xff`. -/
def specPrintableByte (c : Nat) : Bool :=
  (32 ≤ c && c ≤ 126) || c == 10 || c == 13 || c == 9

/-- The sample named by the specification: the first ~4 KiB of the body, or
the whole body when the stream ends earlier. -/
def sampleBytes (body : List Nat) : List Nat :=
  body.take firstChunkSize

/-- The prefix of a byte stream up to and including its last newline (empty
when the stream has none). -/
def upToLastNL : List Nat → List Nat
  | [] => []
  | c :: cs =>
    if 10 ∈ cs then c :: upToLastNL cs
    else if c == 10 then [10] else []

/-- A line counted by `parseFilterContents`: nonempty after trimming and not
starting with `'!'`. -/
def isRuleLine (l : List Nat) : Bool :=
  let t := trimSpace l
  !t.isEmpty && t.head? != some 33

/-- Number of rule lines among a list of lines. -/
def countRules (lines : List (List Nat)) : Nat :=
  (lines.filter isRuleLine).length

/-- The title a single line contributes: the loop tries the regexp only on
trimmed lines starting with `'!'`. -/
def lineTitle (l : List Nat) : Option (List Nat) :=
  let t := trimSpace l
  if t.head? == some 33 then titleMatch t else none

/-- The first title found among a list of lines, if any. -/
def firstTitle (lines : List (List Nat)) : Option (List Nat) :=
  lines.findSome? lineTitle

/-- Outcome of the network-and-sniff part of one fetch, which does not depend
on the filter being refreshed: `true` iff the body arrived whole and passed
both sniff checks. -/
def fetchOk : FetchResult → Bool
  | .failure => false
  | .success body => (sniffCheck body).isNone

section HelperLemmas

lemma replicate_all_of (n : Nat) (a : Nat) (p : Nat → Bool) (h : p a = true) :
    (List.replicate n a).all p = true := by
  induction n with
  | zero => rfl
  | succ n ih => simp [List.replicate_succ, ih, h]

lemma containsSeq_eq_false (p0 : Nat) (pat hay : List Nat)
    (h : ∀ x ∈ hay, x ≠ p0) : containsSeq (p0 :: pat) hay = false := by
  induction hay with
  | nil => rfl
  | cons c rest ih =>
    have hc : c ≠ p0 := h c (by simp)
    have hpre : isPrefixOfB (p0 :: pat) (c :: rest) = false := by
      simp [isPrefixOfB]
      intro he
      exact absurd he.symm hc
    simp [containsSeq, hpre]
    exact ih fun x hx => h x (by simp [hx])

lemma sniffBuffer_of_long (body : List Nat) (h : firstChunkSize ≤ body.length) :
    sniffBuffer body = body.take firstChunkSize := by
  unfold sniffBuffer
  have : firstChunkSize - body.length = 0 := Nat.sub_eq_zero_of_le h
  simp [this]

lemma sniff_replicate_pass (c : Nat) (hp : printableByte c = true)
    (hlt : c ≠ 60) : sniffCheck (List.replicate firstChunkSize c) = none := by
  have hbuf : sniffBuffer (List.replicate firstChunkSize c) =
      List.replicate firstChunkSize c := by
    rw [sniffBuffer_of_long _ (by simp)]
    simp
  unfold sniffCheck
  rw [hbuf]
  have h1 : isPrintableText (List.replicate firstChunkSize c) = true :=
    replicate_all_of _ _ _ hp
  have hmap : (List.replicate firstChunkSize c).map toLowerByte =
      List.replicate firstChunkSize (toLowerByte c) := List.map_replicate ..
  have hlow : toLowerByte c ≠ 60 := by
    unfold toLowerByte
    split
    · omega
    · exact hlt
  have h2 : containsSeq htmlPat (List.replicate firstChunkSize (toLowerByte c)) = false := by
    apply containsSeq_eq_false
    intro x hx
    rw [List.eq_of_mem_replicate hx]
    exact hlow
  have h3 : containsSeq doctypePat (List.replicate firstChunkSize (toLowerByte c)) = false := by
    apply containsSeq_eq_false
    intro x hx
    rw [List.eq_of_mem_replicate hx]
    exact hlow
  simp [h1, hmap, h2, h3]

lemma printableByte_of_high (c : Nat) (h : 128 ≤ c) : printableByte c = true := by
  unfold printableByte
  have h32 : 32 ≤ c := by omega
  have h7f : c ≠ 0x7f := by omega
  simp [h32, h7f]

end HelperLemmas

/-- C2 counterexample: the body consisting of 4096 bytes `0x80` passes both
sniff checks (`sniffCheck _ = none`), although its 4 KiB sample consists
entirely of bytes outside printable ASCII / CR / LF / TAB, which the claim
says must fail the fetch. -/
theorem claim_C2_counterexample :
    sniffCheck (List.replicate firstChunkSize 128) = none ∧
    (sampleBytes (List.replicate firstChunkSize 128)).all specPrintableByte = false ∧
    firstChunkSize ≤ (List.replicate firstChunkSize 128).length := by
  refine ⟨sniff_replicate_pass 128 (by decide) (by decide), ?_, by simp⟩
  apply Bool.eq_false_iff.mpr
  intro hall
  have h128 : (128 : Nat) ∈ sampleBytes (List.replicate firstChunkSize 128) := by
    unfold sampleBytes
    rw [List.take_replicate]
    exact List.mem_replicate.mpr ⟨by decide, rfl⟩
  have := List.all_eq_true.mp hall 128 h128
  simp [specPrintableByte] at this

/-- C2 (amended): the sniff test runs once on the 4096-byte buffer holding
the first `min 4096 |body|` body bytes, zero-padded.  Consequently every body
shorter than 4096 bytes is rejected as non-printable (the padding `0x00`
bytes fail the byte test); for longer bodies the fetch passes the sniff
stage iff the first 4096 bytes all satisfy the source's byte test (which
also accepts every byte `0x80..0xff`, not only printable ASCII) and their
ASCII-lowercasing contains neither `"<html"` nor `"<!doctype"`. -/
theorem claim_C2_amended (body : List Nat) :
    (body.length < firstChunkSize →
       sniffCheck body = some "Data contains non-printable characters") ∧
    (firstChunkSize ≤ body.length →
       (sniffCheck body = none ↔
         (isPrintableText (body.take firstChunkSize) = true ∧
          containsSeq htmlPat ((body.take firstChunkSize).map toLowerByte) = false ∧
          containsSeq doctypePat ((body.take firstChunkSize).map toLowerByte) = false))) ∧
    (∀ c ∈ sampleBytes body, 128 ≤ c → printableByte c = true) := by
  refine ⟨?_, ?_, fun c _ h => printableByte_of_high c h⟩
  · intro hlen
    have h0 : (0 : Nat) ∈ sniffBuffer body := by
      unfold sniffBuffer
      exact List.mem_append_right _ (List.mem_replicate.mpr ⟨by omega, rfl⟩)
    have hp : isPrintableText (sniffBuffer body) = false := by
      apply Bool.eq_false_iff.mpr
      intro hall
      have := List.all_eq_true.mp hall 0 h0
      simp [printableByte] at this
    unfold sniffCheck
    simp [hp]
  · intro hlen
    have hgoal : ∀ (u v w : Bool),
        ((if !u then some "Data contains non-printable characters"
          else if v || w then some "Data is HTML, not plain text" else none) = none
          ↔ (u = true ∧ v = false ∧ w = false)) := by decide
    unfold sniffCheck
    rw [sniffBuffer_of_long body hlen]
    exact hgoal _ _ _

/-- Witness for C2 (amended): the printable one-byte body `"a"` is rejected
by the sniff stage because it is shorter than 4096 bytes. -/
theorem claim_C2_amended_witness :
    ([97] : List Nat).length < firstChunkSize ∧
    sniffCheck [97] = some "Data contains non-printable characters" :=
  ⟨by decide, (claim_C2_amended [97]).1 (by decide)⟩

lemma filterExistsNoLock_iff (cfg : Config) (url : String) :
    filterExistsNoLock cfg url = true ↔
      ∃ g, (g ∈ cfg.Filters ∨ g ∈ cfg.WhitelistFilters) ∧ g.URL = url := by
  unfold filterExistsNoLock
  simp only [Bool.or_eq_true, List.any_eq_true, beq_iff_eq]
  constructor
  · rintro (⟨g, hg, he⟩ | ⟨g, hg, he⟩)
    · exact ⟨g, Or.inl hg, he⟩
    · exact ⟨g, Or.inr hg, he⟩
  · rintro ⟨g, (hg | hg), he⟩
    · exact Or.inl ⟨g, hg, he⟩
    · exact Or.inr ⟨g, hg, he⟩

/-- C4: `filterAdd` returns `false` and leaves both collections unchanged
exactly when some filter in either collection already has the new filter's
URL; otherwise it returns `true` and appends the filter to the collection
selected by its `white` flag. -/
theorem claim_C4_filterAdd (cfg : Config) (f : filter) :
    ((∃ g, (g ∈ cfg.Filters ∨ g ∈ cfg.WhitelistFilters) ∧ g.URL = f.URL) →
      filterAdd cfg f = (false, cfg)) ∧
    ((¬ ∃ g, (g ∈ cfg.Filters ∨ g ∈ cfg.WhitelistFilters) ∧ g.URL = f.URL) →
      filterAdd cfg f =
        (true,
         if f.white then { cfg with WhitelistFilters := cfg.WhitelistFilters ++ [f] }
         else { cfg with Filters := cfg.Filters ++ [f] })) := by
  constructor
  · intro h
    have hb := (filterExistsNoLock_iff cfg f.URL).mpr h
    unfold filterAdd
    simp [hb]
  · intro h
    have hb : filterExistsNoLock cfg f.URL = false := by
      apply Bool.eq_false_iff.mpr
      intro ht
      exact h ((filterExistsNoLock_iff cfg f.URL).mp ht)
    unfold filterAdd
    cases hw : f.white <;> simp [hb, hw]

def cfgC4 : Config :=
  ⟨[{ Enabled := true, URL := "a", Name := [], RulesCount := 0, LastUpdated := 0,
      checksum := 0, white := false, ID := 1 }], []⟩

def fC4 : filter :=
  { Enabled := true, URL := "a", Name := [], RulesCount := 0, LastUpdated := 0,
    checksum := 0, white := false, ID := 2 }

/-- Witness for C4: adding a second filter with the already-present URL `"a"`
fails without mutation. -/
theorem claim_C4_filterAdd_witness : filterAdd cfgC4 fC4 = (false, cfgC4) :=
  (claim_C4_filterAdd cfgC4 fC4).1
    ⟨{ Enabled := true, URL := "a", Name := [], RulesCount := 0, LastUpdated := 0,
       checksum := 0, white := false, ID := 1 },
     Or.inl (by simp [cfgC4]), rfl⟩

lemma schedulerStep_le (i : Nat) (o : CycleOutcome) (h : i ≤ maxInterval) :
    schedulerStep i o ≤ maxInterval := by
  unfold schedulerStep
  cases o with
  | skipped => exact h
  | ran err =>
    cases err
    · simp
    · simp only [if_true]
      split <;> omega

lemma schedulerFold_le (l : List CycleOutcome) (i : Nat) (h : i ≤ maxInterval) :
    l.foldl schedulerStep i ≤ maxInterval := by
  induction l generalizing i with
  | nil => exact h
  | cons o rest ih => exact ih _ (schedulerStep_le i o h)

lemma schedulerStep_fail_ge (i : Nat) (h : i ≤ maxInterval) :
    i ≤ schedulerStep i (CycleOutcome.ran true) := by
  show i ≤ if i * 2 > maxInterval then maxInterval else i * 2
  split <;> omega

lemma schedulerFold_fail_mono (n : Nat) (i : Nat) (h : i ≤ maxInterval) :
    i ≤ (List.replicate n (CycleOutcome.ran true)).foldl schedulerStep i := by
  induction n generalizing i with
  | zero => simp
  | succ n ih =>
    rw [List.replicate_succ, List.foldl_cons]
    exact le_trans (schedulerStep_fail_ge i h) (ih _ (schedulerStep_le i _ h))

/-- C7: starting from the initial 5-second interval the scheduler's interval
never exceeds the 3600-second ceiling; a total-failure cycle turns interval
`i` into `min (i * 2) maxInterval` (doubling capped at the ceiling), which
never decreases a reachable interval, so the interval is non-decreasing
under any run of consecutive total-failure cycles; and a completed cycle
that is not a total failure sets the interval straight to the ceiling. -/
theorem claim_C7_scheduler (outcomes : List CycleOutcome) (n : Nat) (i : Nat) :
    initialInterval ≤ maxInterval ∧
    schedulerRun outcomes ≤ maxInterval ∧
    schedulerRun outcomes ≤
      schedulerRun (outcomes ++ List.replicate n (CycleOutcome.ran true)) ∧
    (i ≤ maxInterval → i ≤ schedulerStep i (CycleOutcome.ran true)) ∧
    schedulerStep i (CycleOutcome.ran true) = min (i * 2) maxInterval ∧
    schedulerStep i (CycleOutcome.ran false) = maxInterval := by
  have hb : schedulerRun outcomes ≤ maxInterval :=
    schedulerFold_le _ _ (by decide)
  refine ⟨by decide, hb, ?_, fun h => schedulerStep_fail_ge i h, ?_, rfl⟩
  · unfold schedulerRun
    rw [List.foldl_append]
    exact schedulerFold_fail_mono n _ hb
  · show (if i * 2 > maxInterval then maxInterval else i * 2) = min (i * 2) maxInterval
    split <;> omega

/-- Witness for C7 at concrete inputs: interval 5 is below the ceiling and
does not decrease under a total-failure cycle. -/
theorem claim_C7_scheduler_witness :
    (5 : Nat) ≤ maxInterval ∧ 5 ≤ schedulerStep 5 (CycleOutcome.ran true) ∧
    schedulerRun [CycleOutcome.ran true] ≤ maxInterval :=
  ⟨by decide,
   (claim_C7_scheduler [CycleOutcome.ran true] 2 5).2.2.2.1 (by decide),
   (claim_C7_scheduler [CycleOutcome.ran true] 2 5).2.1⟩

/-- C8: `refreshFilters` returns the "already running" error, touching
nothing, exactly when a cycle is already running and the request is not
important; in every other case it runs the cycle and returns `Except.ok`
with the updated-filters count — the cycle's total-network-failure flag is
discarded, so no error is surfaced even then. -/
theorem claim_C8_refreshFilters (cfg : Config) (flags : Nat)
    (important running : Bool) (snapNow updNow intervalHours : Nat)
    (fetch : String → FetchResult) :
    ((running = true ∧ important = false) →
      refreshFilters cfg flags important running snapNow updNow intervalHours fetch =
        (cfg, Except.error "Filters update procedure is already running")) ∧
    ((running = false ∨ important = true) →
      refreshFilters cfg flags important running snapNow updNow intervalHours fetch =
        ((refreshFiltersIfNecessary cfg flags snapNow updNow intervalHours fetch).1,
         Except.ok (refreshFiltersIfNecessary cfg flags snapNow updNow intervalHours fetch).2.1)) := by
  constructor
  · rintro ⟨hr, hi⟩
    unfold refreshFilters
    rw [hr, hi]
    rfl
  · intro h
    unfold refreshFilters
    have hc : (!important && running) = false := by
      rcases h with h | h <;> simp [h]
    simp [hc]

/-- Witness for C8: with a cycle already running, an important request still
runs and reports `ok`, while a plain request fails with the already-running
error. -/
theorem claim_C8_refreshFilters_witness :
    refreshFilters ⟨[], []⟩ 0 true true 0 0 0 (fun _ => FetchResult.failure) =
      (⟨[], []⟩, Except.ok 0) ∧
    refreshFilters ⟨[], []⟩ 0 false true 0 0 0 (fun _ => FetchResult.failure) =
      (⟨[], []⟩, Except.error "Filters update procedure is already running") :=
  ⟨Eq.trans
     ((claim_C8_refreshFilters ⟨[], []⟩ 0 true true 0 0 0
        (fun _ => FetchResult.failure)).2 (Or.inr rfl)) (by rfl),
   (claim_C8_refreshFilters ⟨[], []⟩ 0 false true 0 0 0
      (fun _ => FetchResult.failure)).1 ⟨rfl, rfl⟩⟩

lemma or_statusFound_and (r : Nat) :
    (r ||| statusFound) &&& statusFound = statusFound := by
  show (r ||| 1) &&& 1 = 1
  have h2 : (r ||| 1).testBit 0 = true := by
    rw [Nat.testBit_or]
    simp
  have h : (r ||| 1) % 2 = 1 := by
    rw [Nat.testBit_zero] at h2
    exact of_decide_eq_true h2
  rw [Nat.and_one_is_mod, h]

lemma enabledPart_found (loadFn : filter → Option (Nat × Nat × Nat)) (r : Nat)
    (f newf : filter) :
    ∃ y, (enabledPart loadFn r f newf).1 = y ||| statusFound := by
  unfold enabledPart
  repeat' split
  all_goals exact ⟨_, rfl⟩

lemma setPropsBody_status (loadFn : filter → Option (Nat × Nat × Nat))
    (f0 newf : filter) (ex : Bool) :
    (setPropsBody loadFn f0 newf ex).1 = statusURLExists ∨
    (setPropsBody loadFn f0 newf ex).1 &&& statusFound = statusFound := by
  unfold setPropsBody
  split
  · rcases enabledPart_found loadFn 0 { f0 with Name := newf.Name } newf with ⟨y, hy⟩
    right
    rw [hy]
    exact or_statusFound_and y
  · split
    · left
      rfl
    · rcases enabledPart_found loadFn (statusURLChanged ||| statusUpdateRequired)
        { f0 with Name := newf.Name, URL := newf.URL, RulesCount := 0,
                  checksum := 0, LastUpdated := 0 } newf with ⟨y, hy⟩
      right
      rw [hy]
      exact or_statusFound_and y

lemma setPropsBody_ne_zero (loadFn : filter → Option (Nat × Nat × Nat))
    (f0 newf : filter) (ex : Bool) :
    (setPropsBody loadFn f0 newf ex).1 ≠ 0 := by
  rcases setPropsBody_status loadFn f0 newf ex with h | h
  · rw [h]
    decide
  · intro h0
    rw [h0] at h
    simp [statusFound] at h

lemma setPropsList_not_found (loadFn : filter → Option (Nat × Nat × Nat))
    (ex : Bool) (url : String) (newf : filter) (l : List filter)
    (h : ∀ f ∈ l, f.URL ≠ url) :
    setPropsList loadFn ex url newf l = (0, l) := by
  induction l with
  | nil => rfl
  | cons f rest ih =>
    have hne : (f.URL == url) = false := by
      simp
      exact h f (by simp)
    unfold setPropsList
    rw [hne]
    simp [ih fun g hg => h g (by simp [hg])]

lemma setPropsList_status_iff (loadFn : filter → Option (Nat × Nat × Nat))
    (ex : Bool) (url : String) (newf : filter) (l : List filter) :
    (setPropsList loadFn ex url newf l).1 = 0 ↔ ∀ f ∈ l, f.URL ≠ url := by
  constructor
  · intro h0
    induction l with
    | nil => intro f hf; cases hf
    | cons f rest ih =>
      by_cases hu : f.URL = url
      · exfalso
        have hb : (f.URL == url) = true := by simpa using hu
        unfold setPropsList at h0
        rw [hb] at h0
        simp at h0
        exact setPropsBody_ne_zero loadFn f newf ex h0
      · have hb : (f.URL == url) = false := by simpa using hu
        unfold setPropsList at h0
        rw [hb] at h0
        simp at h0
        intro g hg
        rcases List.mem_cons.mp hg with hgf | hgr
        · rw [hgf]; exact hu
        · exact ih h0 g hgr
  · intro h
    rw [setPropsList_not_found loadFn ex url newf l h]

lemma setPropsList_found_status (loadFn : filter → Option (Nat × Nat × Nat))
    (ex : Bool) (url : String) (newf : filter) (l : List filter)
    (hmem : ∃ f ∈ l, f.URL = url) :
    (setPropsList loadFn ex url newf l).1 = statusURLExists ∨
    (setPropsList loadFn ex url newf l).1 &&& statusFound = statusFound := by
  induction l with
  | nil => rcases hmem with ⟨f, hf, _⟩; cases hf
  | cons f rest ih =>
    by_cases hu : f.URL = url
    · have hb : (f.URL == url) = true := by simpa using hu
      unfold setPropsList
      rw [hb]
      simpa using setPropsBody_status loadFn f newf ex
    · have hb : (f.URL == url) = false := by simpa using hu
      unfold setPropsList
      rw [hb]
      simp
      apply ih
      rcases hmem with ⟨g, hg, hgu⟩
      rcases List.mem_cons.mp hg with hgf | hgr
      · exact absurd (hgf ▸ hgu) hu
      · exact ⟨g, hgr, hgu⟩

lemma setPropsBody_collision (loadFn : filter → Option (Nat × Nat × Nat))
    (f newf : filter) (hchange : f.URL ≠ newf.URL) :
    setPropsBody loadFn f newf true = (statusURLExists, { f with Name := newf.Name }) := by
  have hb : (f.URL == newf.URL) = false := by
    simpa using hchange
  unfold setPropsBody
  rw [hb]
  simp

lemma setPropsList_collision (loadFn : filter → Option (Nat × Nat × Nat))
    (url : String) (newf : filter) (l : List filter)
    (hmem : ∃ f ∈ l, f.URL = url) (hchange : url ≠ newf.URL) :
    (setPropsList loadFn true url newf l).1 = statusURLExists := by
  induction l with
  | nil => rcases hmem with ⟨f, hf, _⟩; cases hf
  | cons f rest ih =>
    by_cases hu : f.URL = url
    · have hb : (f.URL == url) = true := by simpa using hu
      unfold setPropsList
      rw [hb]
      simp [setPropsBody_collision loadFn f newf (by rw [hu]; exact hchange)]
    · have hb : (f.URL == url) = false := by simpa using hu
      unfold setPropsList
      rw [hb]
      simp
      apply ih
      rcases hmem with ⟨g, hg, hgu⟩
      rcases List.mem_cons.mp hg with hgf | hgr
      · exact absurd (hgf ▸ hgu) hu
      · exact ⟨g, hgr, hgu⟩

lemma filterSetProperties_false_eq (loadFn : filter → Option (Nat × Nat × Nat))
    (cfg : Config) (url : String) (newf : filter) :
    filterSetProperties loadFn cfg url newf false =
      ((setPropsList loadFn (filterExistsNoLock cfg newf.URL) url newf cfg.Filters).1,
       { cfg with
         Filters := (setPropsList loadFn (filterExistsNoLock cfg newf.URL) url newf cfg.Filters).2 }) :=
  rfl

lemma filterSetProperties_true_eq (loadFn : filter → Option (Nat × Nat × Nat))
    (cfg : Config) (url : String) (newf : filter) :
    filterSetProperties loadFn cfg url newf true =
      ((setPropsList loadFn (filterExistsNoLock cfg newf.URL) url newf cfg.WhitelistFilters).1,
       { cfg with
         WhitelistFilters :=
           (setPropsList loadFn (filterExistsNoLock cfg newf.URL) url newf cfg.WhitelistFilters).2 }) :=
  rfl

lemma setPropsList_first_match (loadFn : filter → Option (Nat × Nat × Nat))
    (ex : Bool) (url : String) (newf : filter) (l1 l2 : List filter) (f : filter)
    (hfirst : ∀ g ∈ l1, g.URL ≠ url) (hf : f.URL = url) :
    setPropsList loadFn ex url newf (l1 ++ f :: l2) =
      ((setPropsBody loadFn f newf ex).1,
       l1 ++ (setPropsBody loadFn f newf ex).2 :: l2) := by
  induction l1 with
  | nil =>
    have hb : (f.URL == url) = true := by simpa using hf
    rw [List.nil_append]
    unfold setPropsList
    rw [hb]
    simp
  | cons g gs ih =>
    have hb : (g.URL == url) = false := by
      simp
      exact hfirst g (by simp)
    rw [List.cons_append]
    unfold setPropsList
    rw [hb]
    simp [ih fun x hx => hfirst x (by simp [hx])]

def loadFnNone : filter → Option (Nat × Nat × Nat) := fun _ => none

def faC6 : filter :=
  { Enabled := true, URL := "a", Name := [65], RulesCount := 3, LastUpdated := 7,
    checksum := 5, white := false, ID := 1 }

def fbC6 : filter :=
  { Enabled := true, URL := "b", Name := [66], RulesCount := 4, LastUpdated := 8,
    checksum := 6, white := false, ID := 2 }

def cfgC6 : Config := ⟨[faC6, fbC6], []⟩

def newfC6 : filter :=
  { Enabled := true, URL := "b", Name := [78], RulesCount := 0, LastUpdated := 0,
    checksum := 0, white := false, ID := 0 }

/-- C6 counterexample: with block-lists holding URLs `"a"` and `"b"`, setting
properties of the filter at `"a"` to URL `"b"` locates a filter (URL `"a"`
is present) yet returns the bare `statusURLExists` bit-set, which does not
include the found flag — contradicting the claim that every call that
locates a filter returns a bit-set including the found flag. -/
theorem claim_C6_counterexample :
    (∃ f ∈ cfgC6.Filters, f.URL = "a") ∧
    (filterSetProperties loadFnNone cfgC6 "a" newfC6 false).1 = statusURLExists ∧
    (filterSetProperties loadFnNone cfgC6 "a" newfC6 false).1 &&& statusFound = 0 := by
  decide

lemma setPropsBody_found (loadFn : filter → Option (Nat × Nat × Nat))
    (f0 newf : filter) (ex : Bool) (h : f0.URL = newf.URL ∨ ex = false) :
    (setPropsBody loadFn f0 newf ex).1 &&& statusFound = statusFound := by
  unfold setPropsBody
  by_cases hu : f0.URL = newf.URL
  · rw [if_pos (by simpa using hu : (f0.URL == newf.URL) = true)]
    rcases enabledPart_found loadFn 0 { f0 with Name := newf.Name } newf with ⟨y, hy⟩
    rw [hy]
    exact or_statusFound_and y
  · have hex : ex = false := by
      rcases h with h | h
      · exact absurd h hu
      · exact h
    rw [if_neg (by simpa using hu : ¬((f0.URL == newf.URL) = true)), hex]
    simp only [Bool.false_eq_true, if_false]
    rcases enabledPart_found loadFn (statusURLChanged ||| statusUpdateRequired)
      { f0 with Name := newf.Name, URL := newf.URL, RulesCount := 0,
                checksum := 0, LastUpdated := 0 } newf with ⟨y, hy⟩
    rw [hy]
    exact or_statusFound_and y

lemma setPropsList_found_flag (loadFn : filter → Option (Nat × Nat × Nat))
    (ex : Bool) (url : String) (newf : filter) (l : List filter)
    (hmem : ∃ f ∈ l, f.URL = url) (h : url = newf.URL ∨ ex = false) :
    (setPropsList loadFn ex url newf l).1 &&& statusFound = statusFound := by
  induction l with
  | nil => rcases hmem with ⟨f, hf, _⟩; cases hf
  | cons f rest ih =>
    by_cases hu : f.URL = url
    · have hb : (f.URL == url) = true := by simpa using hu
      unfold setPropsList
      rw [hb]
      simpa using setPropsBody_found loadFn f newf ex
        (Or.elim h (fun hh => Or.inl (hu.trans hh)) Or.inr)
    · have hb : (f.URL == url) = false := by simpa using hu
      unfold setPropsList
      rw [hb]
      simp
      apply ih
      rcases hmem with ⟨g, hg, hgu⟩
      rcases List.mem_cons.mp hg with hgf | hgr
      · exact absurd (hgf ▸ hgu) hu
      · exact ⟨g, hgr, hgu⟩

/-- C6 (amended): the status is the plain not-found signal 0 exactly when no
filter of the selected collection has the given URL; when one is located the
status either includes the found flag or is exactly `statusURLExists`;
outside the URL-collision case (that is, when the URL is not changing, or
the new URL is unused) a located call always returns a status including the
found flag, while in the URL-collision case (URL changing to one that
already exists) the call returns exactly `statusURLExists`, which is
distinct from the not-found signal but does not include the found flag. -/
theorem claim_C6_amended (loadFn : filter → Option (Nat × Nat × Nat))
    (cfg : Config) (url : String) (newf : filter) (whitelist : Bool) :
    ((filterSetProperties loadFn cfg url newf whitelist).1 = 0 ↔
      ∀ f ∈ (if whitelist then cfg.WhitelistFilters else cfg.Filters), f.URL ≠ url) ∧
    ((∃ f ∈ (if whitelist then cfg.WhitelistFilters else cfg.Filters), f.URL = url) →
      (filterSetProperties loadFn cfg url newf whitelist).1 = statusURLExists ∨
      (filterSetProperties loadFn cfg url newf whitelist).1 &&& statusFound = statusFound) ∧
    ((∃ f ∈ (if whitelist then cfg.WhitelistFilters else cfg.Filters), f.URL = url) →
      (url = newf.URL ∨ filterExistsNoLock cfg newf.URL = false) →
      (filterSetProperties loadFn cfg url newf whitelist).1 &&& statusFound = statusFound) ∧
    ((∃ f ∈ (if whitelist then cfg.WhitelistFilters else cfg.Filters), f.URL = url) →
      url ≠ newf.URL → filterExistsNoLock cfg newf.URL = true →
      (filterSetProperties loadFn cfg url newf whitelist).1 = statusURLExists) ∧
    statusURLExists ≠ 0 ∧ statusURLExists &&& statusFound = 0 := by
  cases whitelist with
  | false =>
    rw [filterSetProperties_false_eq]
    refine ⟨by simpa using setPropsList_status_iff loadFn _ url newf cfg.Filters,
            ?_, ?_, ?_, by decide, by decide⟩
    · intro hmem
      simp only [if_neg (by simp : ¬(false = true))] at hmem
      exact setPropsList_found_status loadFn _ url newf cfg.Filters hmem
    · intro hmem hnc
      simp only [if_neg (by simp : ¬(false = true))] at hmem
      exact setPropsList_found_flag loadFn _ url newf cfg.Filters hmem hnc
    · intro hmem hchange hex
      simp only [if_neg (by simp : ¬(false = true))] at hmem
      rw [hex]
      exact setPropsList_collision loadFn url newf cfg.Filters hmem hchange
  | true =>
    rw [filterSetProperties_true_eq]
    refine ⟨by simpa using setPropsList_status_iff loadFn _ url newf cfg.WhitelistFilters,
            ?_, ?_, ?_, by decide, by decide⟩
    · intro hmem
      simp only [if_pos rfl] at hmem
      exact setPropsList_found_status loadFn _ url newf cfg.WhitelistFilters hmem
    · intro hmem hnc
      simp only [if_pos rfl] at hmem
      exact setPropsList_found_flag loadFn _ url newf cfg.WhitelistFilters hmem hnc
    · intro hmem hchange hex
      simp only [if_pos rfl] at hmem
      rw [hex]
      exact setPropsList_collision loadFn url newf cfg.WhitelistFilters hmem hchange

def newfC6b : filter :=
  { Enabled := true, URL := "a", Name := [79], RulesCount := 0, LastUpdated := 0,
    checksum := 0, white := false, ID := 0 }

/-- Witness for C6 (amended): the URL-collision instance returns exactly
`statusURLExists`, while a located call that does not change the URL returns
a status including the found flag. -/
theorem claim_C6_amended_witness :
    (filterSetProperties loadFnNone cfgC6 "a" newfC6 false).1 = statusURLExists ∧
    (filterSetProperties loadFnNone cfgC6 "a" newfC6b false).1 &&& statusFound =
      statusFound :=
  ⟨(claim_C6_amended loadFnNone cfgC6 "a" newfC6 false).2.2.2.1
     (by decide) (by decide) (by decide),
   (claim_C6_amended loadFnNone cfgC6 "a" newfC6b false).2.2.1
     (by decide) (by decide)⟩

/-- C10: when `filterSetProperties` locates the filter with the given URL and
the call then fails with `statusURLExists` (URL changing to one that already
exists), the located filter's `Name` has already been overwritten with the
new name: the returned configuration is exactly the original with that one
`Name` replaced, which differs from the original whenever the names
differ. -/
theorem claim_C10_collision_overwrites_name
    (loadFn : filter → Option (Nat × Nat × Nat)) (cfg : Config) (url : String)
    (newf : filter) (l1 l2 : List filter) (f : filter)
    (hsplit : cfg.Filters = l1 ++ f :: l2)
    (hfirst : ∀ g ∈ l1, g.URL ≠ url)
    (hf : f.URL = url)
    (hchange : url ≠ newf.URL)
    (hexists : filterExistsNoLock cfg newf.URL = true) :
    filterSetProperties loadFn cfg url newf false =
      (statusURLExists,
       { cfg with Filters := l1 ++ { f with Name := newf.Name } :: l2 }) ∧
    (newf.Name ≠ f.Name →
      ({ cfg with Filters := l1 ++ { f with Name := newf.Name } :: l2 } : Config) ≠ cfg) := by
  constructor
  · rw [filterSetProperties_false_eq, hexists, hsplit,
        setPropsList_first_match loadFn true url newf l1 l2 f hfirst hf,
        setPropsBody_collision loadFn f newf (hf ▸ hchange)]
  · intro hne heq
    have hfl := congrArg Config.Filters heq
    simp only [] at hfl
    rw [hsplit] at hfl
    have h2 := List.append_cancel_left hfl
    have h3 := (List.cons_eq_cons.mp h2).1
    have h4 := congrArg filter.Name h3
    simp only [] at h4
    exact hne h4

/-- Witness for C10: the collision call at the concrete configuration
returns `statusURLExists` with the located filter's name overwritten. -/
theorem claim_C10_collision_overwrites_name_witness :
    filterSetProperties loadFnNone cfgC6 "a" newfC6 false =
      (statusURLExists,
       { cfgC6 with Filters := [] ++ { faC6 with Name := newfC6.Name } :: [fbC6] }) :=
  (claim_C10_collision_overwrites_name loadFnNone cfgC6 "a" newfC6 [] [fbC6] faC6
    rfl (fun g hg => absurd hg (List.not_mem_nil g)) rfl (by decide) (by decide)).1

/-- Pointwise view of the commit loop: the snapshot entries applied in order
to one live filter. -/
def applyAll (ps : List (filter × Bool)) (f : filter) : filter :=
  ps.foldl (fun g p => (mergeOne p.1 p.2 g).1) f

lemma merge_fst (ps : List (filter × Bool)) (acc : List filter × Nat) :
    (ps.foldl mergeStep acc).1 = acc.1.map (applyAll ps) := by
  induction ps generalizing acc with
  | nil =>
    show acc.1 = acc.1.map (applyAll [])
    exact (List.map_id' acc.1).symm
  | cons p ps ih =>
    rw [List.foldl_cons, ih]
    have h1 : (mergeStep acc p).1 = acc.1.map (fun g => (mergeOne p.1 p.2 g).1) := by
      show List.map Prod.fst (List.map (mergeOne p.1 p.2) acc.1) = _
      rw [List.map_map]
      rfl
    rw [h1, List.map_map]
    rfl

lemma mergeOne_snd_false (uf : filter) (f : filter) :
    (mergeOne uf false f).2 = 0 := by
  unfold mergeOne
  split <;> rfl

lemma merge_snd_zero (ps : List (filter × Bool)) (acc : List filter × Nat)
    (h : ∀ p ∈ ps, p.2 = false) : (ps.foldl mergeStep acc).2 = acc.2 := by
  induction ps generalizing acc with
  | nil => rfl
  | cons p ps ih =>
    rw [List.foldl_cons, ih _ fun q hq => h q (by simp [hq])]
    have hz : ((acc.1.map (mergeOne p.1 p.2)).map Prod.snd).sum = 0 := by
      apply List.sum_eq_zero
      intro x hx
      rcases List.mem_map.mp hx with ⟨y, hy, hxy⟩
      rcases List.mem_map.mp hy with ⟨g, _, hgy⟩
      rw [← hxy, ← hgy, h p (by simp)]
      exact mergeOne_snd_false p.1 g
    show acc.2 + ((acc.1.map (mergeOne p.1 p.2)).map Prod.snd).sum = acc.2
    rw [hz]
    exact Nat.add_zero acc.2

lemma mergeOne_Enabled (uf : filter) (b : Bool) (f : filter) :
    (mergeOne uf b f).1.Enabled = f.Enabled := by
  unfold mergeOne
  repeat' split
  all_goals rfl

lemma mergeOne_URL (uf : filter) (b : Bool) (f : filter) :
    (mergeOne uf b f).1.URL = f.URL := by
  unfold mergeOne
  repeat' split
  all_goals rfl

lemma mergeOne_ID (uf : filter) (b : Bool) (f : filter) :
    (mergeOne uf b f).1.ID = f.ID := by
  unfold mergeOne
  repeat' split
  all_goals rfl

lemma mergeOne_fields_false (uf : filter) (f : filter) :
    (mergeOne uf false f).1.Name = f.Name ∧
    (mergeOne uf false f).1.RulesCount = f.RulesCount ∧
    (mergeOne uf false f).1.checksum = f.checksum := by
  unfold mergeOne
  split <;> exact ⟨rfl, rfl, rfl⟩

lemma mergeOne_not_match (uf : filter) (b : Bool) (f : filter)
    (h : ¬(f.ID = uf.ID ∧ f.URL = uf.URL)) : mergeOne uf b f = (f, 0) := by
  unfold mergeOne
  rw [if_neg]
  simp only [Bool.and_eq_true, beq_iff_eq]
  exact h

lemma mergeOne_match_lastUpdated (uf : filter) (b : Bool) (f : filter)
    (h : f.ID = uf.ID ∧ f.URL = uf.URL) :
    (mergeOne uf b f).1.LastUpdated = uf.LastUpdated := by
  unfold mergeOne
  rw [if_pos (by simp [h.1, h.2])]
  split <;> rfl

lemma mergeOne_lastUpdated_cases (uf : filter) (b : Bool) (f : filter) :
    (mergeOne uf b f).1.LastUpdated = uf.LastUpdated ∨
    (mergeOne uf b f).1.LastUpdated = f.LastUpdated := by
  unfold mergeOne
  repeat' split
  all_goals simp

lemma applyAll_URL (ps : List (filter × Bool)) (f : filter) :
    (applyAll ps f).URL = f.URL := by
  induction ps generalizing f with
  | nil => rfl
  | cons p ps ih =>
    show (applyAll ps (mergeOne p.1 p.2 f).1).URL = f.URL
    rw [ih, mergeOne_URL]

lemma applyAll_Enabled (ps : List (filter × Bool)) (f : filter) :
    (applyAll ps f).Enabled = f.Enabled := by
  induction ps generalizing f with
  | nil => rfl
  | cons p ps ih =>
    show (applyAll ps (mergeOne p.1 p.2 f).1).Enabled = f.Enabled
    rw [ih, mergeOne_Enabled]

lemma applyAll_ID (ps : List (filter × Bool)) (f : filter) :
    (applyAll ps f).ID = f.ID := by
  induction ps generalizing f with
  | nil => rfl
  | cons p ps ih =>
    show (applyAll ps (mergeOne p.1 p.2 f).1).ID = f.ID
    rw [ih, mergeOne_ID]

lemma mergeOne_fields_of (uf : filter) (b : Bool) (f : filter)
    (hcase : b = false ∨ ¬(f.ID = uf.ID ∧ f.URL = uf.URL)) :
    (mergeOne uf b f).1.Name = f.Name ∧
    (mergeOne uf b f).1.RulesCount = f.RulesCount ∧
    (mergeOne uf b f).1.checksum = f.checksum := by
  rcases hcase with hb | hnm
  · subst hb
    exact mergeOne_fields_false uf f
  · rw [mergeOne_not_match uf b f hnm]
    exact ⟨rfl, rfl, rfl⟩

lemma applyAll_fields (ps : List (filter × Bool)) (f : filter)
    (h : ∀ p ∈ ps, f.ID = p.1.ID ∧ f.URL = p.1.URL → p.2 = false) :
    (applyAll ps f).Name = f.Name ∧
    (applyAll ps f).RulesCount = f.RulesCount ∧
    (applyAll ps f).checksum = f.checksum := by
  induction ps generalizing f with
  | nil => exact ⟨rfl, rfl, rfl⟩
  | cons p ps ih =>
    show (applyAll ps (mergeOne p.1 p.2 f).1).Name = f.Name ∧
      (applyAll ps (mergeOne p.1 p.2 f).1).RulesCount = f.RulesCount ∧
      (applyAll ps (mergeOne p.1 p.2 f).1).checksum = f.checksum
    have hid := mergeOne_ID p.1 p.2 f
    have hurl := mergeOne_URL p.1 p.2 f
    have htail : ∀ q ∈ ps,
        (mergeOne p.1 p.2 f).1.ID = q.1.ID ∧ (mergeOne p.1 p.2 f).1.URL = q.1.URL →
          q.2 = false := by
      intro q hq hc
      exact h q (by simp [hq]) ⟨hid ▸ hc.1, hurl ▸ hc.2⟩
    have hih := ih (mergeOne p.1 p.2 f).1 htail
    have hcase : p.2 = false ∨ ¬(f.ID = p.1.ID ∧ f.URL = p.1.URL) := by
      by_cases hm : f.ID = p.1.ID ∧ f.URL = p.1.URL
      · exact Or.inl (h p (by simp) hm)
      · exact Or.inr hm
    rcases mergeOne_fields_of p.1 p.2 f hcase with ⟨h1, h2, h3⟩
    exact ⟨hih.1.trans h1, hih.2.1.trans h2, hih.2.2.trans h3⟩

lemma applyAll_lastUpdated_stay (ps : List (filter × Bool)) (f : filter) (t : Nat)
    (hall : ∀ p ∈ ps, p.1.LastUpdated = t) (hf : f.LastUpdated = t) :
    (applyAll ps f).LastUpdated = t := by
  induction ps generalizing f with
  | nil => exact hf
  | cons p ps ih =>
    show (applyAll ps (mergeOne p.1 p.2 f).1).LastUpdated = t
    apply ih _ fun q hq => hall q (by simp [hq])
    rcases mergeOne_lastUpdated_cases p.1 p.2 f with hc | hc
    · rw [hc]
      exact hall p (by simp)
    · rw [hc]
      exact hf

lemma applyAll_lastUpdated_match (ps : List (filter × Bool)) (f : filter) (t : Nat)
    (hall : ∀ p ∈ ps, p.1.LastUpdated = t)
    (hm : ∃ p ∈ ps, f.ID = p.1.ID ∧ f.URL = p.1.URL) :
    (applyAll ps f).LastUpdated = t := by
  induction ps generalizing f with
  | nil => rcases hm with ⟨p, hp, _⟩; cases hp
  | cons p ps ih =>
    show (applyAll ps (mergeOne p.1 p.2 f).1).LastUpdated = t
    by_cases hc : f.ID = p.1.ID ∧ f.URL = p.1.URL
    · apply applyAll_lastUpdated_stay _ _ _ fun q hq => hall q (by simp [hq])
      rw [mergeOne_match_lastUpdated p.1 p.2 f hc]
      exact hall p (by simp)
    · rw [mergeOne_not_match p.1 p.2 f hc]
      apply ih _ fun q hq => hall q (by simp [hq])
      rcases hm with ⟨q, hq, hqc⟩
      rcases List.mem_cons.mp hq with hqp | hqr
      · exact absurd (hqp ▸ hqc) hc
      · exact ⟨q, hqr, hqc⟩

lemma update_lastUpdated (f : filter) (res : FetchResult) (now : Nat) :
    (update f res now).1.LastUpdated = now := rfl

lemma updateIntl_URL (f : filter) (res : FetchResult) :
    (updateIntl f res).1.URL = f.URL := by
  unfold updateIntl
  repeat' split
  all_goals rfl

lemma update_URL (f : filter) (res : FetchResult) (now : Nat) :
    (update f res now).1.URL = f.URL := by
  show (updateIntl f res).1.URL = f.URL
  exact updateIntl_URL f res

lemma updateIntl_ID (f : filter) (res : FetchResult) :
    (updateIntl f res).1.ID = f.ID := by
  unfold updateIntl
  repeat' split
  all_goals rfl

lemma update_ID (f : filter) (res : FetchResult) (now : Nat) :
    (update f res now).1.ID = f.ID := by
  show (updateIntl f res).1.ID = f.ID
  exact updateIntl_ID f res

lemma update_ok (f : filter) (res : FetchResult) (now : Nat) :
    (update f res now).2.2 = fetchOk res := by
  show (updateIntl f res).2.2 = fetchOk res
  unfold updateIntl fetchOk
  cases res with
  | failure => rfl
  | success body =>
    dsimp only
    cases hs : sniffCheck body with
    | some e => rfl
    | none =>
      dsimp only
      repeat' split
      all_goals rfl

lemma update_changed_ok (f : filter) (res : FetchResult) (now : Nat) :
    (update f res now).2.1 = true → fetchOk res = true := by
  show (updateIntl f res).2.1 = true → _
  unfold updateIntl fetchOk
  cases res with
  | failure => intro h; cases h
  | success body =>
    dsimp only
    cases hs : sniffCheck body with
    | some e => intro h; cases h
    | none => intro _; rfl

def updatePair (updNow : Nat) (fetch : String → FetchResult) (uf : filter) : filter × Bool :=
  ((update uf (fetch uf.URL) updNow).1, (update uf (fetch uf.URL) updNow).2.1)

def refreshPairs (filters : List filter) (force : Bool)
    (snapNow updNow intervalHours : Nat) (fetch : String → FetchResult) :
    List (filter × Bool) :=
  (dueSnapshots filters force snapNow intervalHours).map (updatePair updNow fetch)

lemma updateResults_map_pair (filters : List filter) (force : Bool)
    (snapNow updNow intervalHours : Nat) (fetch : String → FetchResult) :
    (updateResults filters force snapNow updNow intervalHours fetch).map
        (fun r => (r.1, r.2.1)) =
      refreshPairs filters force snapNow updNow intervalHours fetch := by
  unfold updateResults refreshPairs
  rw [List.map_map]
  rfl

lemma refreshArray_of_ok (filters : List filter) (force : Bool)
    (snapNow updNow intervalHours : Nat) (fetch : String → FetchResult)
    (hok : ∃ f ∈ filters, dueFilter force snapNow intervalHours f = true ∧
            fetchOk (fetch f.URL) = true) :
    refreshFiltersArray filters force snapNow updNow intervalHours fetch =
      ((merge filters (refreshPairs filters force snapNow updNow intervalHours fetch)).2,
       (merge filters (refreshPairs filters force snapNow updNow intervalHours fetch)).1,
       (updateResults filters force snapNow updNow intervalHours fetch).map (fun r => r.1),
       (updateResults filters force snapNow updNow intervalHours fetch).map (fun r => r.2.1),
       false) := by
  obtain ⟨f0, hf0, hdue0, hok0⟩ := hok
  have hmem0 : snapshotFilter f0 ∈ dueSnapshots filters force snapNow intervalHours :=
    List.mem_map_of_mem _ (List.mem_filter.mpr ⟨hf0, hdue0⟩)
  have hne : (dueSnapshots filters force snapNow intervalHours).isEmpty = false := by
    apply Bool.eq_false_iff.mpr
    intro h
    exact List.ne_nil_of_mem hmem0 (List.isEmpty_iff.mp h)
  have hr0mem : update (snapshotFilter f0) (fetch (snapshotFilter f0).URL) updNow ∈
      updateResults filters force snapNow updNow intervalHours fetch :=
    List.mem_map_of_mem _ hmem0
  have hr0ok : (update (snapshotFilter f0) (fetch (snapshotFilter f0).URL) updNow).2.2 = true := by
    rw [update_ok]
    exact hok0
  have hlt : ((updateResults filters force snapNow updNow intervalHours fetch).filter
      (fun r => !r.2.2)).length <
      (updateResults filters force snapNow updNow intervalHours fetch).length := by
    apply List.length_filter_lt_length_iff_exists.mpr
    exact ⟨_, hr0mem, by simp [hr0ok]⟩
  have hbeq : ((((updateResults filters force snapNow updNow intervalHours fetch).filter
      (fun r => !r.2.2)).length ==
      (updateResults filters force snapNow updNow intervalHours fetch).length)) = false := by
    simp only [beq_eq_false_iff_ne, ne_eq]
    omega
  unfold refreshFiltersArray
  rw [hne, hbeq, updateResults_map_pair]
  rfl


lemma refreshPairs_mem (filters : List filter) (force : Bool)
    (snapNow updNow intervalHours : Nat) (fetch : String → FetchResult)
    (p : filter × Bool)
    (hp : p ∈ refreshPairs filters force snapNow updNow intervalHours fetch) :
    ∃ g ∈ filters, dueFilter force snapNow intervalHours g = true ∧
      p = updatePair updNow fetch (snapshotFilter g) := by
  unfold refreshPairs dueSnapshots at hp
  rcases List.mem_map.mp hp with ⟨uf, huf, hufp⟩
  rcases List.mem_map.mp huf with ⟨g, hg, hguf⟩
  exact ⟨g, (List.mem_filter.mp hg).1, (List.mem_filter.mp hg).2,
    by rw [← hufp, ← hguf]⟩

lemma refreshPairs_mem_of_due (filters : List filter) (force : Bool)
    (snapNow updNow intervalHours : Nat) (fetch : String → FetchResult)
    (f : filter) (hf : f ∈ filters)
    (hdue : dueFilter force snapNow intervalHours f = true) :
    updatePair updNow fetch (snapshotFilter f) ∈
      refreshPairs filters force snapNow updNow intervalHours fetch := by
  unfold refreshPairs dueSnapshots
  exact List.mem_map_of_mem _ (List.mem_map_of_mem _ (List.mem_filter.mpr ⟨hf, hdue⟩))

lemma refreshPairs_lastUpdated (filters : List filter) (force : Bool)
    (snapNow updNow intervalHours : Nat) (fetch : String → FetchResult)
    (p : filter × Bool)
    (hp : p ∈ refreshPairs filters force snapNow updNow intervalHours fetch) :
    p.1.LastUpdated = updNow := by
  rcases refreshPairs_mem filters force snapNow updNow intervalHours fetch p hp with
    ⟨g, _, _, hpe⟩
  rw [hpe]
  rfl

lemma updatePair_URL (updNow : Nat) (fetch : String → FetchResult) (uf : filter) :
    (updatePair updNow fetch uf).1.URL = uf.URL :=
  update_URL uf (fetch uf.URL) updNow

lemma updatePair_ID (updNow : Nat) (fetch : String → FetchResult) (uf : filter) :
    (updatePair updNow fetch uf).1.ID = uf.ID :=
  update_ID uf (fetch uf.URL) updNow

lemma refreshPairs_fail_false (filters : List filter) (force : Bool)
    (snapNow updNow intervalHours : Nat) (fetch : String → FetchResult)
    (f : filter) (hfail : fetchOk (fetch f.URL) = false)
    (p : filter × Bool)
    (hp : p ∈ refreshPairs filters force snapNow updNow intervalHours fetch)
    (hmatch : f.ID = p.1.ID ∧ f.URL = p.1.URL) : p.2 = false := by
  rcases refreshPairs_mem filters force snapNow updNow intervalHours fetch p hp with
    ⟨g, _, _, hpe⟩
  have hurl : f.URL = g.URL := by
    rw [hmatch.2, hpe, updatePair_URL]
    rfl
  by_contra hb
  have hbt : p.2 = true := by
    cases hc : p.2
    · exact absurd hc hb
    · rfl
  rw [hpe] at hbt
  have hok : fetchOk (fetch (snapshotFilter g).URL) = true :=
    update_changed_ok (snapshotFilter g) (fetch (snapshotFilter g).URL) updNow hbt
  have : fetchOk (fetch f.URL) = true := by
    rw [hurl]
    exact hok
  rw [this] at hfail
  cases hfail

/-- C1 (amended): in a per-collection refresh where at least one snapshotted
fetch succeeds, every live filter whose URL's fetch did not succeed keeps its
`Name`, `RulesCount` and `checksum` (and its `URL`, `Enabled`, `ID`), but —
contrary to the claim — if it was snapshotted (due) its `LastUpdated` is
advanced to the update time rather than left unchanged; the cycle reports no
total network failure. -/
theorem claim_C1_amended (filters : List filter) (force : Bool)
    (snapNow updNow intervalHours : Nat) (fetch : String → FetchResult)
    (hok : ∃ f ∈ filters, dueFilter force snapNow intervalHours f = true ∧
            fetchOk (fetch f.URL) = true) :
    (refreshFiltersArray filters force snapNow updNow intervalHours fetch).2.2.2.2 = false ∧
    ∀ (k : Nat) (f : filter), filters[k]? = some f →
      fetchOk (fetch f.URL) = false →
      ∃ g, (refreshFiltersArray filters force snapNow updNow intervalHours fetch).2.1[k]? = some g ∧
        g.Name = f.Name ∧ g.RulesCount = f.RulesCount ∧ g.checksum = f.checksum ∧
        g.URL = f.URL ∧ g.Enabled = f.Enabled ∧ g.ID = f.ID ∧
        (dueFilter force snapNow intervalHours f = true → g.LastUpdated = updNow) := by
  rw [refreshArray_of_ok filters force snapNow updNow intervalHours fetch hok]
  refine ⟨rfl, ?_⟩
  intro k f hk hfail
  have hlive : (merge filters (refreshPairs filters force snapNow updNow intervalHours fetch)).1 =
      filters.map (applyAll (refreshPairs filters force snapNow updNow intervalHours fetch)) :=
    merge_fst _ (filters, 0)
  refine ⟨applyAll (refreshPairs filters force snapNow updNow intervalHours fetch) f, ?_, ?_, ?_⟩
  · show (merge filters (refreshPairs filters force snapNow updNow intervalHours fetch)).1[k]? = _
    rw [hlive, List.getElem?_map, hk]
    rfl
  · exact (applyAll_fields _ f fun p hp hm =>
      refreshPairs_fail_false filters force snapNow updNow intervalHours fetch f hfail p hp hm).1
  · refine ⟨(applyAll_fields _ f fun p hp hm =>
      refreshPairs_fail_false filters force snapNow updNow intervalHours fetch f hfail p hp hm).2.1,
      (applyAll_fields _ f fun p hp hm =>
      refreshPairs_fail_false filters force snapNow updNow intervalHours fetch f hfail p hp hm).2.2,
      applyAll_URL _ f, applyAll_Enabled _ f, applyAll_ID _ f, ?_⟩
    intro hdue
    apply applyAll_lastUpdated_match _ f updNow
      (fun p hp => refreshPairs_lastUpdated filters force snapNow updNow intervalHours fetch p hp)
    have hf : f ∈ filters := List.getElem?_mem hk
    exact ⟨updatePair updNow fetch (snapshotFilter f),
      refreshPairs_mem_of_due filters force snapNow updNow intervalHours fetch f hf hdue,
      (updatePair_ID updNow fetch (snapshotFilter f)).symm,
      (updatePair_URL updNow fetch (snapshotFilter f)).symm⟩


lemma merge_fst_map (live : List filter) (ps : List (filter × Bool)) :
    (merge live ps).1 = live.map (applyAll ps) := merge_fst ps (live, 0)

lemma merge_snd_zero_all (live : List filter) (ps : List (filter × Bool))
    (h : ∀ p ∈ ps, p.2 = false) : (merge live ps).2 = 0 :=
  merge_snd_zero ps (live, 0) h

def bodyC1 : List Nat := List.replicate firstChunkSize 97

def fA1 : filter :=
  { Enabled := true, URL := "a", Name := [65], RulesCount := 1, LastUpdated := 100,
    checksum := 1, white := false, ID := 1 }

def fB1 : filter :=
  { Enabled := true, URL := "b", Name := [66], RulesCount := 2, LastUpdated := 100,
    checksum := 2, white := false, ID := 2 }

def fetchC1 : String → FetchResult :=
  fun u => if u == "a" then FetchResult.success bodyC1 else FetchResult.failure

lemma fetchC1_a_ok : fetchOk (fetchC1 "a") = true := by
  show (sniffCheck (List.replicate firstChunkSize 97)).isNone = true
  rw [sniff_replicate_pass 97 (by decide) (by decide)]
  rfl

/-- C1 counterexample: in a refresh of `[fA1, fB1]` where the fetch for
`"a"` succeeds and the fetch for `"b"` fails, the failed snapshotted filter
`fB1` is committed back with `LastUpdated` advanced to the update time 999,
although it was 100 before the cycle — a failed filter is not left entirely
unchanged, contrary to the claim. -/
theorem claim_C1_counterexample :
    fetchOk (fetchC1 "a") = true ∧
    fetchC1 "b" = FetchResult.failure ∧
    dueFilter true 0 0 fB1 = true ∧
    (refreshFiltersArray [fA1, fB1] true 0 999 0 fetchC1).2.1[1]? =
      some { fB1 with LastUpdated := 999 } ∧
    fB1.LastUpdated = 100 := by
  refine ⟨fetchC1_a_ok, rfl, by decide, ?_, rfl⟩
  rw [refreshArray_of_ok [fA1, fB1] true 0 999 0 fetchC1
    ⟨fA1, by simp, by decide, fetchC1_a_ok⟩]
  show (merge [fA1, fB1] (refreshPairs [fA1, fB1] true 0 999 0 fetchC1)).1[1]? = _
  rw [merge_fst_map, List.getElem?_map]
  have hps : refreshPairs [fA1, fB1] true 0 999 0 fetchC1 =
      [updatePair 999 fetchC1 (snapshotFilter fA1),
       updatePair 999 fetchC1 (snapshotFilter fB1)] := rfl
  rw [hps]
  have hnm : ¬(fB1.ID = (updatePair 999 fetchC1 (snapshotFilter fA1)).1.ID ∧
               fB1.URL = (updatePair 999 fetchC1 (snapshotFilter fA1)).1.URL) := by
    intro hc
    have h1 := hc.1
    rw [updatePair_ID] at h1
    exact absurd h1 (by decide)
  have happ : applyAll [updatePair 999 fetchC1 (snapshotFilter fA1),
      updatePair 999 fetchC1 (snapshotFilter fB1)] fB1 =
      { fB1 with LastUpdated := 999 } := by
    show (mergeOne (updatePair 999 fetchC1 (snapshotFilter fB1)).1
        (updatePair 999 fetchC1 (snapshotFilter fB1)).2
        (mergeOne (updatePair 999 fetchC1 (snapshotFilter fA1)).1
          (updatePair 999 fetchC1 (snapshotFilter fA1)).2 fB1).1).1 =
      { fB1 with LastUpdated := 999 }
    rw [mergeOne_not_match _ _ fB1 hnm]
    have hpB : updatePair 999 fetchC1 (snapshotFilter fB1) =
        ({ snapshotFilter fB1 with LastUpdated := 999 }, false) := rfl
    rw [hpB]
    rfl
  show ([fA1, fB1][1]?).map (applyAll [updatePair 999 fetchC1 (snapshotFilter fA1),
      updatePair 999 fetchC1 (snapshotFilter fB1)]) = _
  rw [show ([fA1, fB1][1]? : Option filter) = some fB1 from rfl]
  rw [Option.map_some']
  rw [happ]

/-- Witness for C1 (amended) at the concrete inputs of the counterexample:
the failed filter keeps `Name`, `RulesCount`, `checksum` and, being due, has
`LastUpdated` set to the update time. -/
theorem claim_C1_amended_witness :
    ∃ g, (refreshFiltersArray [fA1, fB1] true 0 999 0 fetchC1).2.1[1]? = some g ∧
      g.Name = fB1.Name ∧ g.RulesCount = fB1.RulesCount ∧ g.checksum = fB1.checksum ∧
      g.URL = fB1.URL ∧ g.Enabled = fB1.Enabled ∧ g.ID = fB1.ID ∧
      (dueFilter true 0 0 fB1 = true → g.LastUpdated = 999) :=
  (claim_C1_amended [fA1, fB1] true 0 999 0 fetchC1
    ⟨fA1, by simp, by decide, fetchC1_a_ok⟩).2 1 fB1 rfl rfl



/-- The checksum the parse step would compute for a fetch outcome, used to
state "content whose computed checksum equals the recorded one". -/
def fetchChecksum : FetchResult → Option Nat
  | .failure => none
  | .success body => some (parseFilterContents body).2.1

lemma fetchOk_success (res : FetchResult) (h : fetchOk res = true) :
    ∃ body, res = FetchResult.success body ∧ sniffCheck body = none := by
  cases res with
  | failure => cases h
  | success body =>
    refine ⟨body, rfl, ?_⟩
    have : (sniffCheck body).isNone = true := h
    exact Option.isNone_iff_eq_none.mp this

lemma updateIntl_unchanged (f : filter) (body : List Nat)
    (hs : sniffCheck body = none)
    (hc : (parseFilterContents body).2.1 = f.checksum) :
    updateIntl f (FetchResult.success body) = (f, false, true) := by
  unfold updateIntl
  dsimp only
  rw [hs]
  dsimp only
  rw [hc]
  simp

lemma update_unchanged (f : filter) (body : List Nat) (now : Nat)
    (hs : sniffCheck body = none)
    (hc : (parseFilterContents body).2.1 = f.checksum) :
    update f (FetchResult.success body) now =
      ({ f with LastUpdated := now }, false, true) := by
  unfold update
  rw [updateIntl_unchanged f body hs hc]

lemma dueFilter_force (snapNow intervalHours : Nat) (f : filter) :
    dueFilter true snapNow intervalHours f = f.Enabled := by
  unfold dueFilter
  simp

lemma refreshArray_no_due (filters : List filter) (force : Bool)
    (snapNow updNow intervalHours : Nat) (fetch : String → FetchResult)
    (h : ∀ g ∈ filters, dueFilter force snapNow intervalHours g = false) :
    refreshFiltersArray filters force snapNow updNow intervalHours fetch =
      (0, filters, [], [], false) := by
  have hnil : dueSnapshots filters force snapNow intervalHours = [] := by
    unfold dueSnapshots
    rw [List.filter_eq_nil_iff.mpr fun a ha => by rw [h a ha]; simp]
    rfl
  unfold refreshFiltersArray
  rw [hnil]
  rfl

lemma refreshPairs_all_false (filters : List filter)
    (snapNow updNow intervalHours : Nat) (fetch : String → FetchResult)
    (h : ∀ g ∈ filters, dueFilter true snapNow intervalHours g = true →
         fetchOk (fetch g.URL) = true ∧ fetchChecksum (fetch g.URL) = some g.checksum) :
    ∀ p ∈ refreshPairs filters true snapNow updNow intervalHours fetch, p.2 = false := by
  intro p hp
  rcases refreshPairs_mem filters true snapNow updNow intervalHours fetch p hp with
    ⟨g, hg, hdue, hpe⟩
  rcases h g hg hdue with ⟨hok, hcs⟩
  rcases fetchOk_success (fetch g.URL) hok with ⟨body, hbe, hbs⟩
  rw [hbe] at hcs
  have hcs2 : (parseFilterContents body).2.1 = g.checksum := by
    have := hcs
    unfold fetchChecksum at this
    exact Option.some.inj this
  rw [hpe]
  show (updateIntl (snapshotFilter g) (fetch g.URL)).2.1 = false
  rw [hbe, updateIntl_unchanged (snapshotFilter g) body hbs hcs2]

lemma refreshArray_unchanged_pass (filters : List filter)
    (snapNow updNow intervalHours : Nat) (fetch : String → FetchResult)
    (h : ∀ g ∈ filters, g.Enabled = true →
         fetchOk (fetch g.URL) = true ∧ fetchChecksum (fetch g.URL) = some g.checksum) :
    (refreshFiltersArray filters true snapNow updNow intervalHours fetch).1 = 0 ∧
    (refreshFiltersArray filters true snapNow updNow intervalHours fetch).2.2.2.2 = false ∧
    (refreshFiltersArray filters true snapNow updNow intervalHours fetch).2.1.length =
      filters.length ∧
    ∀ (k : Nat) (f : filter), filters[k]? = some f →
      ∃ g, (refreshFiltersArray filters true snapNow updNow intervalHours fetch).2.1[k]? =
          some g ∧
        g.Name = f.Name ∧ g.RulesCount = f.RulesCount ∧ g.checksum = f.checksum ∧
        g.URL = f.URL ∧ g.Enabled = f.Enabled ∧ g.ID = f.ID ∧
        (f.Enabled = true → g.LastUpdated = updNow) := by
  have hga : ∀ g ∈ filters, dueFilter true snapNow intervalHours g = true →
      fetchOk (fetch g.URL) = true ∧ fetchChecksum (fetch g.URL) = some g.checksum := by
    intro g hg hdue
    exact h g hg (by rw [← dueFilter_force snapNow intervalHours g]; exact hdue)
  by_cases hdue : ∃ g ∈ filters, dueFilter true snapNow intervalHours g = true
  · obtain ⟨g0, hg0, hdue0⟩ := hdue
    have hok0 : fetchOk (fetch g0.URL) = true := (hga g0 hg0 hdue0).1
    rw [refreshArray_of_ok filters true snapNow updNow intervalHours fetch
      ⟨g0, hg0, hdue0, hok0⟩]
    have hallfalse := refreshPairs_all_false filters snapNow updNow intervalHours fetch hga
    have hlive := merge_fst_map filters
      (refreshPairs filters true snapNow updNow intervalHours fetch)
    refine ⟨merge_snd_zero_all filters _ hallfalse, rfl, ?_, ?_⟩
    · show (merge filters (refreshPairs filters true snapNow updNow intervalHours fetch)).1.length = _
      rw [hlive, List.length_map]
    · intro k f hk
      refine ⟨applyAll (refreshPairs filters true snapNow updNow intervalHours fetch) f, ?_, ?_⟩
      · show (merge filters (refreshPairs filters true snapNow updNow intervalHours fetch)).1[k]? = _
        rw [hlive, List.getElem?_map, hk]
        rfl
      · have hfields := applyAll_fields
          (refreshPairs filters true snapNow updNow intervalHours fetch) f
          (fun p hp _ => hallfalse p hp)
        refine ⟨hfields.1, hfields.2.1, hfields.2.2, applyAll_URL _ f,
          applyAll_Enabled _ f, applyAll_ID _ f, ?_⟩
        intro hen
        apply applyAll_lastUpdated_match _ f updNow
          (fun p hp => refreshPairs_lastUpdated filters true snapNow updNow intervalHours fetch p hp)
        exact ⟨updatePair updNow fetch (snapshotFilter f),
          refreshPairs_mem_of_due filters true snapNow updNow intervalHours fetch f
            (List.getElem?_mem hk) (by rw [dueFilter_force]; exact hen),
          (updatePair_ID updNow fetch (snapshotFilter f)).symm,
          (updatePair_URL updNow fetch (snapshotFilter f)).symm⟩
  · have hnone : ∀ g ∈ filters, dueFilter true snapNow intervalHours g = false := by
      intro g hg
      cases hc : dueFilter true snapNow intervalHours g
      · rfl
      · exact absurd ⟨g, hg, hc⟩ hdue
    rw [refreshArray_no_due filters true snapNow updNow intervalHours fetch hnone]
    refine ⟨rfl, rfl, rfl, ?_⟩
    intro k f hk
    refine ⟨f, hk, rfl, rfl, rfl, rfl, rfl, rfl, ?_⟩
    intro hen
    exact absurd ⟨f, List.getElem?_mem hk, by rw [dueFilter_force]; exact hen⟩ hdue
/-- C5: a fetch whose parsed checksum equals the filter's recorded checksum
reports no change (`changed = false`, no error) and leaves `RulesCount`,
`checksum` and `Name` untouched while setting `LastUpdated` to the update
time; consequently two forced refreshes in immediate succession over
upstream content whose checksums match the recorded ones change no
checksum/ruleCount/name anywhere, report zero updated filters on both
passes, and advance `LastUpdated` of every enabled filter on both passes. -/
theorem claim_C5_idempotent_refresh
    (f : filter) (body : List Nat) (now : Nat)
    (filters : List filter) (sn1 u1 sn2 u2 hrs : Nat) (fetch : String → FetchResult) :
    (sniffCheck body = none → (parseFilterContents body).2.1 = f.checksum →
      update f (FetchResult.success body) now =
        ({ f with LastUpdated := now }, false, true)) ∧
    ((∀ g ∈ filters, g.Enabled = true →
        fetchOk (fetch g.URL) = true ∧ fetchChecksum (fetch g.URL) = some g.checksum) →
      (refreshFiltersArray filters true sn1 u1 hrs fetch).1 = 0 ∧
      (refreshFiltersArray (refreshFiltersArray filters true sn1 u1 hrs fetch).2.1
        true sn2 u2 hrs fetch).1 = 0 ∧
      ∀ (k : Nat) (f0 : filter), filters[k]? = some f0 →
        ∃ g1 g2,
          (refreshFiltersArray filters true sn1 u1 hrs fetch).2.1[k]? = some g1 ∧
          (refreshFiltersArray (refreshFiltersArray filters true sn1 u1 hrs fetch).2.1
            true sn2 u2 hrs fetch).2.1[k]? = some g2 ∧
          g1.Name = f0.Name ∧ g1.RulesCount = f0.RulesCount ∧ g1.checksum = f0.checksum ∧
          g2.Name = f0.Name ∧ g2.RulesCount = f0.RulesCount ∧ g2.checksum = f0.checksum ∧
          (f0.Enabled = true → g1.LastUpdated = u1 ∧ g2.LastUpdated = u2)) := by
  constructor
  · intro hs hc
    exact update_unchanged f body now hs hc
  · intro h
    obtain ⟨hc1, hnet1, hlen1, hpt1⟩ := refreshArray_unchanged_pass filters sn1 u1 hrs fetch h
    have h2 : ∀ g' ∈ (refreshFiltersArray filters true sn1 u1 hrs fetch).2.1,
        g'.Enabled = true →
        fetchOk (fetch g'.URL) = true ∧ fetchChecksum (fetch g'.URL) = some g'.checksum := by
      intro g' hg' hen
      rcases List.mem_iff_getElem?.mp hg' with ⟨k, hk⟩
      have hklt : k < (refreshFiltersArray filters true sn1 u1 hrs fetch).2.1.length := by
        rcases List.getElem?_eq_some.mp hk with ⟨hl, _⟩
        exact hl
      have hkf : k < filters.length := by
        rw [← hlen1]
        exact hklt
      have hfk := List.getElem?_eq_getElem hkf
      rcases hpt1 k _ hfk with ⟨g, hg, hn, hrc, hcs, hurl, henb, hid, hlu⟩
      have hgg : g = g' := by
        rw [hk] at hg
        exact (Option.some.inj hg).symm
      rw [← hgg, hurl, hcs]
      apply h filters[k] (List.getElem?_mem hfk)
      rw [← henb, hgg]
      exact hen
    obtain ⟨hc2, hnet2, hlen2, hpt2⟩ :=
      refreshArray_unchanged_pass (refreshFiltersArray filters true sn1 u1 hrs fetch).2.1
        sn2 u2 hrs fetch h2
    refine ⟨hc1, hc2, ?_⟩
    intro k f0 hk0
    rcases hpt1 k f0 hk0 with ⟨g1, hg1, hn1, hrc1, hcs1, hurl1, hen1, hid1, hlu1⟩
    rcases hpt2 k g1 hg1 with ⟨g2, hg2, hn2, hrc2, hcs2, hurl2, hen2, hid2, hlu2⟩
    refine ⟨g1, g2, hg1, hg2, hn1, hrc1, hcs1, hn2.trans hn1, hrc2.trans hrc1,
      hcs2.trans hcs1, ?_⟩
    intro hen
    exact ⟨hlu1 hen, hlu2 (hen1.trans hen)⟩
lemma terminatedLinesAux_no_nl (data : List Nat) (acc : List Nat)
    (h : ∀ c ∈ data, c ≠ 10) : terminatedLinesAux data acc = [] := by
  induction data generalizing acc with
  | nil => rfl
  | cons c cs ih =>
    have hc : (c == 10) = false := by
      simp
      exact h c (by simp)
    unfold terminatedLinesAux
    rw [hc]
    exact ih _ fun x hx => h x (by simp [hx])

lemma parse_bodyC1 : parseFilterContents bodyC1 = (0, 0, []) := by
  unfold parseFilterContents terminatedLines bodyC1
  rw [terminatedLinesAux_no_nl _ _
    (fun c hc => by rw [List.eq_of_mem_replicate hc]; decide)]
  rfl

def fA5 : filter :=
  { Enabled := true, URL := "a", Name := [65], RulesCount := 9, LastUpdated := 3,
    checksum := 0, white := false, ID := 1 }

/-- Witness for C5: an in-sync fetch of 4096 printable bytes reports no
change and only advances `LastUpdated`; a forced refresh of the empty
collection updates zero filters. -/
theorem claim_C5_idempotent_refresh_witness :
    update fA5 (FetchResult.success bodyC1) 7 =
      ({ fA5 with LastUpdated := 7 }, false, true) ∧
    (refreshFiltersArray [] true 0 0 0 (fun _ => FetchResult.failure)).1 = 0 :=
  ⟨(claim_C5_idempotent_refresh fA5 bodyC1 7 [] 0 0 0 0 0 (fun _ => FetchResult.failure)).1
     (show sniffCheck (List.replicate firstChunkSize 97) = none from
       sniff_replicate_pass 97 (by decide) (by decide))
     (by rw [parse_bodyC1]; rfl),
   ((claim_C5_idempotent_refresh fA5 bodyC1 7 [] 0 0 0 0 0 (fun _ => FetchResult.failure)).2
     (fun g hg => absurd hg (List.not_mem_nil g))).1⟩


lemma crc32Update_nil (cs : Nat) : crc32Update cs [] = cs := by
  unfold crc32Update
  rw [List.foldl_nil, Nat.xor_assoc, Nat.xor_self, Nat.xor_zero]

lemma crc32Update_append (cs : Nat) (A B : List Nat) :
    crc32Update (crc32Update cs A) B = crc32Update cs (A ++ B) := by
  unfold crc32Update
  rw [List.foldl_append]
  congr 1
  rw [Nat.xor_assoc, Nat.xor_self, Nat.xor_zero]

lemma parseStep_eq (st : Nat × Nat × List Nat × Bool) (line : List Nat) :
    parseStep st line =
      (st.1 + (if isRuleLine line then 1 else 0),
       crc32Update st.2.1 line,
       (if st.2.2.2 then st.2.2.1 else (lineTitle line).getD st.2.2.1),
       st.2.2.2 || (lineTitle line).isSome) := by
  unfold parseStep isRuleLine lineTitle
  by_cases h1 : (trimSpace line).isEmpty
  · have h2 : (trimSpace line).head? = none := by
      rw [List.isEmpty_iff.mp h1]
      rfl
    simp [h1, h2]
  · by_cases h2 : (trimSpace line).head? == some 33
    · have h2p : (trimSpace line).head? = some 33 := eq_of_beq h2
      cases h3 : titleMatch (trimSpace line) with
      | some cap =>
        cases h4 : st.2.2.2 with
        | false => simp [h1, h2, h2p, h3, h4]
        | true => simp [h1, h2, h2p, h3, h4]
      | none => simp [h1, h2, h2p, h3]
    · have h2' : ((trimSpace line).head? == some 33) = false := by
        cases hh : (trimSpace line).head? == some 33
        · rfl
        · exact absurd hh h2
      have h2p : ¬((trimSpace line).head? = some 33) := by
        intro he
        rw [he] at h2'
        simp at h2'
      simp [h1, h2', h2p]

lemma parse_foldl (lines : List (List Nat)) (rc cs : Nat) (nm : List Nat) (seen : Bool) :
    lines.foldl parseStep (rc, cs, nm, seen) =
      (rc + countRules lines,
       crc32Update cs lines.flatten,
       (if seen then nm else (firstTitle lines).getD nm),
       seen || (firstTitle lines).isSome) := by
  induction lines generalizing rc cs nm seen with
  | nil => simp [countRules, firstTitle, crc32Update_nil]
  | cons l ls ih =>
    rw [List.foldl_cons, parseStep_eq, ih]
    have hcount : countRules (l :: ls) = (if isRuleLine l then 1 else 0) + countRules ls := by
      unfold countRules
      rw [List.filter_cons]
      split <;> first | (simp; omega) | simp
    have hjoin : crc32Update (crc32Update cs l) ls.flatten = crc32Update cs (l :: ls).flatten := by
      rw [crc32Update_append]
      rfl
    have hfirst : firstTitle (l :: ls) =
        ((lineTitle l).orElse fun _ => firstTitle ls) := by
      unfold firstTitle
      rw [List.findSome?_cons]
      cases lineTitle l <;> simp
    refine congrArg₂ _ (by omega) (congrArg₂ _ hjoin ?_)
    cases hseen : seen with
    | true => simp [hfirst]
    | false =>
      cases hlt : lineTitle l with
      | some cap => simp [hfirst, hlt]
      | none => simp [hfirst, hlt]
lemma upToLastNL_no_nl (data : List Nat) (h : ¬(10 ∈ data)) : upToLastNL data = [] := by
  induction data with
  | nil => rfl
  | cons c cs ih =>
    have hc : ¬(c = 10) := fun he => h (by simp [he])
    have hcs : ¬(10 ∈ cs) := fun he => h (by simp [he])
    unfold upToLastNL
    rw [if_neg hcs, if_neg (by simpa using hc)]

lemma join_terminatedLinesAux (data : List Nat) (acc : List Nat) :
    (terminatedLinesAux data acc).flatten =
      (if 10 ∈ data then acc.reverse ++ upToLastNL data else []) := by
  induction data generalizing acc with
  | nil => simp [terminatedLinesAux]
  | cons c cs ih =>
    have hult : upToLastNL (c :: cs) =
        if 10 ∈ cs then c :: upToLastNL cs else if c == 10 then [10] else [] := rfl
    by_cases hc : c = 10
    · subst hc
      unfold terminatedLinesAux
      rw [if_pos (show ((10:Nat) == 10) = true from rfl)]
      show (acc.reverse ++ [10]) ++ (terminatedLinesAux cs []).flatten = _
      rw [ih []]
      rw [if_pos (show (10:Nat) ∈ 10 :: cs by simp), hult]
      by_cases h10 : 10 ∈ cs
      · simp [h10, List.append_assoc]
      · simp [h10]
    · have hcb : (c == 10) = false := by simpa using hc
      unfold terminatedLinesAux
      rw [hcb]
      simp only [Bool.false_eq_true, if_false]
      rw [ih (c :: acc)]
      have hmem : (10 ∈ c :: cs) ↔ (10 ∈ cs) := by
        constructor
        · intro h
          rcases List.mem_cons.mp h with h | h
          · exact absurd h.symm hc
          · exact h
        · intro h
          exact List.mem_cons_of_mem c h
      by_cases h10 : 10 ∈ cs
      · rw [if_pos h10, if_pos (hmem.mpr h10), hult, if_pos h10]
        simp
      · rw [if_neg h10, if_neg (fun hx => h10 (hmem.mp hx))]

lemma join_terminatedLines (data : List Nat) :
    (terminatedLines data).flatten = upToLastNL data := by
  unfold terminatedLines
  rw [join_terminatedLinesAux]
  by_cases h10 : 10 ∈ data
  · simp [h10]
  · rw [if_neg h10, upToLastNL_no_nl data h10]
lemma upToLastNL_of_last_nl (data : List Nat) (h : data.getLast? = some 10) :
    upToLastNL data = data := by
  induction data with
  | nil => cases h
  | cons c cs ih =>
    cases hcs : cs with
    | nil =>
      subst hcs
      have hc : c = 10 := by simpa using h
      subst hc
      rfl
    | cons d ds =>
      have hl : cs.getLast? = some 10 := by
        rw [hcs]
        rw [hcs] at h
        simpa [List.getLast?_cons_cons] using h
      have h10 : (10:Nat) ∈ cs := List.mem_of_mem_getLast? hl
      have hult : upToLastNL (c :: cs) =
          if 10 ∈ cs then c :: upToLastNL cs else if c == 10 then [10] else [] := rfl
      rw [← hcs, hult, if_pos h10, ih hl]
/-- C3 (amended): the parse step computes its rule count, checksum and title
over the newline-terminated lines only — the trailing fragment without a
final newline is dropped (`ReadString` returns it with `io.EOF` and the loop
breaks).  The checksum is the CRC32 of the prefix of the body up to and
including its last newline (hence of the whole body exactly when the body
ends with a newline); the rule count counts terminated lines that are
nonempty after trimming and do not start with `'!'`; the name comes from the
first trimmed terminated line matching the title regexp. -/
theorem claim_C3_amended (body : List Nat) :
    parseFilterContents body =
      (countRules (terminatedLines body),
       crc32Update 0 (upToLastNL body),
       (firstTitle (terminatedLines body)).getD []) ∧
    (body.getLast? = some 10 →
      (parseFilterContents body).2.1 = crc32Update 0 body) := by
  have h1 : parseFilterContents body =
      (countRules (terminatedLines body),
       crc32Update 0 (upToLastNL body),
       (firstTitle (terminatedLines body)).getD []) := by
    unfold parseFilterContents
    rw [parse_foldl, join_terminatedLines]
    simp
  refine ⟨h1, ?_⟩
  intro hlast
  rw [h1]
  show crc32Update 0 (upToLastNL body) = crc32Update 0 body
  rw [upToLastNL_of_last_nl body hlast]

/-- Witness for C3 (amended): a body ending in a newline has its checksum
equal to the CRC32 of the whole byte stream. -/
theorem claim_C3_amended_witness :
    ([97, 10] : List Nat).getLast? = some 10 ∧
    (parseFilterContents [97, 10]).2.1 = crc32Update 0 [97, 10] :=
  ⟨by decide, (claim_C3_amended [97, 10]).2 (by decide)⟩
def bodyC3 : List Nat := List.replicate 4095 97 ++ [10, 98]

/-- Claim-side line splitting (the spec counts all lines of the body,
including a trailing fragment not terminated by a newline). -/
def specLinesAux : List Nat → List Nat → List (List Nat)
  | [], acc => [acc.reverse]
  | c :: cs, acc =>
    if c == 10 then acc.reverse :: specLinesAux cs [] else specLinesAux cs (c :: acc)

def specLines (data : List Nat) : List (List Nat) := specLinesAux data []

/-- Claim-side rule count: the number of non-empty lines not starting with
`'!'`, over all lines of the body. -/
def specRuleCount (data : List Nat) : Nat :=
  ((specLines data).filter (fun l => !l.isEmpty && l.head? != some 33)).length

lemma terminatedLinesAux_cons (c : Nat) (cs acc : List Nat) :
    terminatedLinesAux (c :: cs) acc =
      if c == 10 then (acc.reverse ++ [10]) :: terminatedLinesAux cs []
      else terminatedLinesAux cs (c :: acc) := rfl

lemma specLinesAux_cons (c : Nat) (cs acc : List Nat) :
    specLinesAux (c :: cs) acc =
      if c == 10 then acc.reverse :: specLinesAux cs []
      else specLinesAux cs (c :: acc) := rfl

lemma dropWhile_cons_false (p : Nat → Bool) (c : Nat) (l : List Nat)
    (hc : p c = false) : List.dropWhile p (c :: l) = c :: l := by
  rw [List.dropWhile_cons, if_neg]
  rw [hc]
  simp

lemma terminatedLinesAux_replicate (n c : Nat) (hc : (c == 10) = false)
    (rest acc : List Nat) :
    terminatedLinesAux (List.replicate n c ++ rest) acc =
      terminatedLinesAux rest (List.replicate n c ++ acc) := by
  induction n generalizing acc with
  | zero => simp
  | succ n ih =>
    rw [List.replicate_succ, List.cons_append, terminatedLinesAux_cons, hc]
    simp only [Bool.false_eq_true, if_false]
    rw [ih (c :: acc)]
    congr 1
    rw [List.append_cons, ← List.replicate_succ', List.replicate_succ, List.cons_append]

lemma specLinesAux_replicate (n c : Nat) (hc : (c == 10) = false)
    (rest acc : List Nat) :
    specLinesAux (List.replicate n c ++ rest) acc =
      specLinesAux rest (List.replicate n c ++ acc) := by
  induction n generalizing acc with
  | zero => simp
  | succ n ih =>
    rw [List.replicate_succ, List.cons_append, specLinesAux_cons, hc]
    simp only [Bool.false_eq_true, if_false]
    rw [ih (c :: acc)]
    congr 1
    rw [List.append_cons, ← List.replicate_succ', List.replicate_succ, List.cons_append]

lemma tl_bodyC3 : terminatedLines bodyC3 = [List.replicate 4095 97 ++ [10]] := by
  unfold terminatedLines bodyC3
  rw [terminatedLinesAux_replicate 4095 97 (by decide)]
  have h2 : terminatedLinesAux ([10, 98] : List Nat) (List.replicate 4095 97 ++ []) =
      [(List.replicate 4095 97 ++ []).reverse ++ [10]] := rfl
  rw [h2, List.append_nil, List.reverse_replicate]

lemma trimSpace_rep97 (n : Nat) :
    trimSpace (List.replicate (n + 1) 97 ++ [10]) = List.replicate (n + 1) 97 := by
  unfold trimSpace
  have h1 : List.dropWhile isSpaceByte (List.replicate (n + 1) 97 ++ [10]) =
      List.replicate (n + 1) 97 ++ [10] := by
    rw [List.replicate_succ, List.cons_append]
    exact dropWhile_cons_false _ _ _ (by decide)
  rw [h1]
  have h2 : (List.replicate (n + 1) 97 ++ [10]).reverse =
      10 :: List.replicate (n + 1) 97 := by
    rw [List.reverse_append, List.reverse_replicate]
    rfl
  rw [h2]
  have h3 : List.dropWhile isSpaceByte (10 :: List.replicate (n + 1) 97) =
      List.replicate (n + 1) 97 := by
    rw [List.dropWhile_cons, if_pos (show isSpaceByte 10 = true from rfl)]
    rw [List.replicate_succ]
    exact dropWhile_cons_false _ _ _ (by decide)
  rw [h3, List.reverse_replicate]

lemma isRuleLine_rep97 (n : Nat) :
    isRuleLine (List.replicate (n + 1) 97 ++ [10]) = true := by
  unfold isRuleLine
  rw [trimSpace_rep97, List.replicate_succ]
  rfl

lemma parse_bodyC3_rules : (parseFilterContents bodyC3).1 = 1 := by
  unfold parseFilterContents
  rw [tl_bodyC3, parse_foldl]
  show 0 + countRules [List.replicate 4095 97 ++ [10]] = 1
  unfold countRules
  rw [List.filter_cons]
  rw [show isRuleLine (List.replicate 4095 97 ++ [10]) = true from isRuleLine_rep97 4094]
  rfl

lemma spec_bodyC3 : specLines bodyC3 = [List.replicate 4095 97, [98]] := by
  unfold specLines bodyC3
  rw [specLinesAux_replicate 4095 97 (by decide)]
  have h2 : specLinesAux ([10, 98] : List Nat) (List.replicate 4095 97 ++ []) =
      (List.replicate 4095 97 ++ []).reverse :: specLinesAux [98] [] := rfl
  have h3 : specLinesAux ([98] : List Nat) [] = [[98]] := rfl
  rw [h2, h3, List.append_nil, List.reverse_replicate]

lemma specRuleCount_bodyC3 : specRuleCount bodyC3 = 2 := by
  unfold specRuleCount
  rw [spec_bodyC3, List.filter_cons, List.filter_cons]
  rw [show (!(List.replicate 4095 97).isEmpty &&
      (List.replicate 4095 97).head? != some 33) = true from rfl]
  rfl

lemma sniff_bodyC3 : sniffCheck bodyC3 = none := by
  have hlen : firstChunkSize ≤ bodyC3.length := by
    unfold bodyC3
    rw [List.length_append, List.length_replicate]
    decide
  have htake : bodyC3.take firstChunkSize = List.replicate 4095 97 ++ [10] := by
    unfold bodyC3
    rw [List.take_append_eq_append_take, List.take_replicate, List.length_replicate]
    rw [show firstChunkSize ⊓ 4095 = 4095 from rfl, show firstChunkSize - 4095 = 1 from rfl]
    rfl
  unfold sniffCheck
  rw [sniffBuffer_of_long bodyC3 hlen, htake]
  have hp : isPrintableText (List.replicate 4095 97 ++ [10]) = true := by
    unfold isPrintableText
    rw [List.all_append, replicate_all_of 4095 97 printableByte (by decide)]
    rfl
  have hmap : (List.replicate 4095 97 ++ [10]).map toLowerByte =
      List.replicate 4095 97 ++ [10] := by
    rw [List.map_append, List.map_replicate]
    rfl
  have hinf : ∀ x ∈ List.replicate 4095 97 ++ [10], x ≠ 60 := by
    intro x hx
    rcases List.mem_append.mp hx with hx | hx
    · rw [List.eq_of_mem_replicate hx]
      decide
    · have hx10 : x = 10 := by simpa using hx
      rw [hx10]
      decide
  have h2 : containsSeq htmlPat (List.replicate 4095 97 ++ [10]) = false :=
    containsSeq_eq_false 60 [104, 116, 109, 108] _ hinf
  have h3 : containsSeq doctypePat (List.replicate 4095 97 ++ [10]) = false :=
    containsSeq_eq_false 60 [33, 100, 111, 99, 116, 121, 112, 101] _ hinf
  have hgoal : ∀ (u v w : Bool), u = true → v = false → w = false →
      ((if !u then some "Data contains non-printable characters"
        else if v || w then some "Data is HTML, not plain text" else none) =
        (none : Option String)) := by decide
  exact hgoal _ _ _ hp (by rw [hmap]; exact h2) (by rw [hmap]; exact h3)

/-- C3 counterexample: the claim's reading of "lines" includes the final
line even when it lacks a trailing newline, but the source's
`parseFilterContents` only processes newline-terminated lines.  For the
downloadable body of 4095 `'a'` bytes, a newline, and a final `'b'` (which
passes both sniff checks), the source counts 1 rule while the claim's count
of non-empty non-`'!'` lines is 2; and for the one-byte stream `"a"` the
computed checksum is 0, not the CRC32 of the entire byte stream. -/
theorem claim_C3_counterexample :
    sniffCheck bodyC3 = none ∧
    (parseFilterContents bodyC3).1 = 1 ∧
    specRuleCount bodyC3 = 2 ∧
    (parseFilterContents [97]).2.1 = 0 ∧
    crc32Update 0 [97] ≠ 0 ∧
    ([97] : List Nat) ≠ [] :=
  ⟨sniff_bodyC3, parse_bodyC3_rules, specRuleCount_bodyC3, by decide, by decide,
   by decide⟩


lemma loadFiltersAssign_cons (f : filter) (fs : List filter) (next : Int) :
    loadFiltersAssign (f :: fs) next =
      if f.ID == 0 then
        ({ f with ID := next } :: (loadFiltersAssign fs (next + 1)).1,
         (loadFiltersAssign fs (next + 1)).2)
      else (f :: (loadFiltersAssign fs next).1, (loadFiltersAssign fs next).2) := rfl

lemma loadAssign_spec (fs : List filter) (next : Int)
    (hlt : ∀ f ∈ fs, f.ID ≠ 0 → f.ID < next)
    (hpw : ((fs.map filter.ID).filter (fun i => i != 0)).Pairwise (fun a b => a ≠ b)) :
    next ≤ (loadFiltersAssign fs next).2 ∧
    (∀ g ∈ (loadFiltersAssign fs next).1,
       (g.ID ≠ 0 ∧ ∃ f ∈ fs, f.ID = g.ID) ∨
       (next ≤ g.ID ∧ g.ID < (loadFiltersAssign fs next).2)) ∧
    ((loadFiltersAssign fs next).1.map filter.ID).Pairwise (fun a b => a ≠ b) := by
  induction fs generalizing next with
  | nil =>
    refine ⟨le_refl next, ?_, List.Pairwise.nil⟩
    intro g hg
    cases hg
  | cons f fs ih =>
    by_cases h0 : f.ID = 0
    · rw [loadFiltersAssign_cons, if_pos (by simpa using h0)]
      have hlt' : ∀ g ∈ fs, g.ID ≠ 0 → g.ID < next + 1 := by
        intro g hg hg0
        have := hlt g (by simp [hg]) hg0
        omega
      have hpw' : ((fs.map filter.ID).filter (fun i => i != 0)).Pairwise
          (fun a b => a ≠ b) := by
        have hf : ((0 : Int) != 0) = false := by decide
        rw [List.map_cons, List.filter_cons, h0] at hpw
        simpa [hf] using hpw
      obtain ⟨ihle, ihmem, ihpw⟩ := ih (next + 1) hlt' hpw'
      refine ⟨by omega, ?_, ?_⟩
      · intro g hg
        rcases List.mem_cons.mp hg with hg | hg
        · right
          rw [hg]
          constructor
          · exact le_refl next
          · show next < (loadFiltersAssign fs (next + 1)).2
            omega
        · rcases ihmem g hg with ⟨hg0, f', hf', hf'id⟩ | ⟨hge, hglt⟩
          · exact Or.inl ⟨hg0, f', by simp [hf'], hf'id⟩
          · exact Or.inr ⟨by omega, hglt⟩
      · rw [List.map_cons]
        refine List.pairwise_cons.mpr ⟨?_, ihpw⟩
        intro b hb
        rcases List.mem_map.mp hb with ⟨g, hg, hgb⟩
        rcases ihmem g hg with ⟨hg0, f', hf', hf'id⟩ | ⟨hge, _⟩
        · have : f'.ID < next := hlt f' (by simp [hf']) (by rw [hf'id]; exact hg0)
          rw [← hgb, ← hf'id]
          show next ≠ f'.ID
          omega
        · rw [← hgb]
          show next ≠ g.ID
          omega
    · have h0b : (f.ID == 0) = false := by simpa using h0
      rw [loadFiltersAssign_cons, h0b]
      simp only [Bool.false_eq_true, if_false]
      have hlt' : ∀ g ∈ fs, g.ID ≠ 0 → g.ID < next := by
        intro g hg hg0
        exact hlt g (by simp [hg]) hg0
      have hid0 : (f.ID != 0) = true := by simpa using h0
      have hpwc : ((f.ID :: (fs.map filter.ID).filter (fun i => i != 0))).Pairwise
          (fun a b => a ≠ b) := by
        rw [List.map_cons, List.filter_cons, hid0] at hpw
        simpa using hpw
      have hpw' := (List.pairwise_cons.mp hpwc).2
      have hhead := (List.pairwise_cons.mp hpwc).1
      obtain ⟨ihle, ihmem, ihpw⟩ := ih next hlt' hpw'
      refine ⟨ihle, ?_, ?_⟩
      · intro g hg
        rcases List.mem_cons.mp hg with hg | hg
        · exact Or.inl ⟨by rw [hg]; exact h0, f, by simp, by rw [hg]⟩
        · rcases ihmem g hg with ⟨hg0, f', hf', hf'id⟩ | ⟨hge, hglt⟩
          · exact Or.inl ⟨hg0, f', by simp [hf'], hf'id⟩
          · exact Or.inr ⟨hge, hglt⟩
      · rw [List.map_cons]
        refine List.pairwise_cons.mpr ⟨?_, ihpw⟩
        intro b hb
        rcases List.mem_map.mp hb with ⟨g, hg, hgb⟩
        rcases ihmem g hg with ⟨hg0, f', hf', hf'id⟩ | ⟨hge, _⟩
        · apply hhead
          rw [← hgb, ← hf'id]
          exact List.mem_filter.mpr ⟨List.mem_map.mpr ⟨f', hf', rfl⟩,
            by simpa using (hf'id ▸ hg0)⟩
        · have : f.ID < next := hlt f (by simp) h0
          rw [← hgb]
          show f.ID ≠ g.ID
          omega


lemma deduplicateAux_sublist (fs : List filter) (seen : List String) :
    (deduplicateAux fs seen).Sublist fs := by
  induction fs generalizing seen with
  | nil => exact List.Sublist.refl []
  | cons f fs ih =>
    unfold deduplicateAux
    split
    · exact List.Sublist.cons f (ih seen)
    · exact List.Sublist.cons₂ f (ih (f.URL :: seen))

lemma deduplicateFilters_sublist (fs : List filter) :
    (deduplicateFilters fs).Sublist fs :=
  deduplicateAux_sublist fs []

lemma initFiltering_fst (cfg : Config) (seed : Int) :
    (initFiltering cfg seed).1 =
      ⟨deduplicateFilters (loadFiltersAssign cfg.Filters seed).1,
       (loadFiltersAssign cfg.WhitelistFilters
         (loadFiltersAssign cfg.Filters seed).2).1⟩ := rfl

/-- C9 (amended): provided the persisted nonzero ids are pairwise distinct
across the union of both collections and each of them is smaller than the
initial value of the shared id counter, the ids are pairwise distinct across
the union of both collections after `initFiltering` (zero-id filters receive
fresh counter values, which cannot collide with the persisted ids below the
seed nor with each other). -/
theorem claim_C9_amended (cfg : Config) (seed : Int)
    (hdistinct : (((cfg.Filters ++ cfg.WhitelistFilters).map filter.ID).filter
        (fun i => i != 0)).Pairwise (fun a b => a ≠ b))
    (hlt : ∀ f ∈ cfg.Filters ++ cfg.WhitelistFilters, f.ID ≠ 0 → f.ID < seed) :
    ((((initFiltering cfg seed).1.Filters ++
       (initFiltering cfg seed).1.WhitelistFilters).map filter.ID)).Pairwise
      (fun a b => a ≠ b) := by
  have hsplit : ((cfg.Filters ++ cfg.WhitelistFilters).map filter.ID).filter
      (fun i => i != 0) =
      ((cfg.Filters.map filter.ID).filter (fun i => i != 0)) ++
      ((cfg.WhitelistFilters.map filter.ID).filter (fun i => i != 0)) := by
    rw [List.map_append, List.filter_append]
  rw [hsplit] at hdistinct
  obtain ⟨hpwF, hpwW, hcross⟩ := List.pairwise_append.mp hdistinct
  have hltF : ∀ f ∈ cfg.Filters, f.ID ≠ 0 → f.ID < seed := by
    intro f hf
    exact hlt f (List.mem_append_left _ hf)
  obtain ⟨hle1, hmem1, hpw1⟩ := loadAssign_spec cfg.Filters seed hltF hpwF
  have hltW : ∀ f ∈ cfg.WhitelistFilters, f.ID ≠ 0 →
      f.ID < (loadFiltersAssign cfg.Filters seed).2 := by
    intro f hf hf0
    have := hlt f (List.mem_append_right _ hf) hf0
    omega
  obtain ⟨hle2, hmem2, hpw2⟩ := loadAssign_spec cfg.WhitelistFilters
    (loadFiltersAssign cfg.Filters seed).2 hltW hpwW
  rw [initFiltering_fst]
  rw [List.map_append, List.pairwise_append]
  have hsub : (deduplicateFilters (loadFiltersAssign cfg.Filters seed).1).Sublist
      (loadFiltersAssign cfg.Filters seed).1 :=
    deduplicateFilters_sublist _
  refine ⟨hpw1.sublist (hsub.map filter.ID), hpw2, ?_⟩
  intro a ha b hb
  rcases List.mem_map.mp ha with ⟨g, hg, hga⟩
  rcases List.mem_map.mp hb with ⟨g', hg', hgb⟩
  have hgmem : g ∈ (loadFiltersAssign cfg.Filters seed).1 := hsub.mem hg
  rcases hmem1 g hgmem with ⟨hg0, f1, hf1, hf1id⟩ | ⟨hge1, hglt1⟩ <;>
    rcases hmem2 g' hg' with ⟨hg0', f2, hf2, hf2id⟩ | ⟨hge2, hglt2⟩
  · have hmA : g.ID ∈ (cfg.Filters.map filter.ID).filter (fun i => i != 0) :=
      List.mem_filter.mpr ⟨List.mem_map.mpr ⟨f1, hf1, hf1id⟩, by simpa using hg0⟩
    have hmB : g'.ID ∈ (cfg.WhitelistFilters.map filter.ID).filter (fun i => i != 0) :=
      List.mem_filter.mpr ⟨List.mem_map.mpr ⟨f2, hf2, hf2id⟩, by simpa using hg0'⟩
    rw [← hga, ← hgb]
    exact hcross _ hmA _ hmB
  · have h1 : g.ID < seed := by
      rw [← hf1id] at hg0 ⊢
      exact hltF f1 hf1 hg0
    rw [← hga, ← hgb]
    show g.ID ≠ g'.ID
    omega
  · have h2 : g'.ID < seed := by
      rw [← hf2id] at hg0' ⊢
      exact hlt f2 (List.mem_append_right _ hf2) hg0'
    rw [← hga, ← hgb]
    show g.ID ≠ g'.ID
    omega
  · rw [← hga, ← hgb]
    show g.ID ≠ g'.ID
    omega

def cfgDup : Config :=
  ⟨[{ Enabled := false, URL := "a", Name := [], RulesCount := 0, LastUpdated := 0,
      checksum := 0, white := false, ID := 7 },
    { Enabled := false, URL := "b", Name := [], RulesCount := 0, LastUpdated := 0,
      checksum := 0, white := false, ID := 7 }], []⟩

/-- C9 counterexample: a persisted configuration in which two block-list
filters already share id 7 (with different URLs, so deduplication keeps
both) still has duplicate ids after `initFiltering` — the claim does not
hold for every starting configuration of persisted ids. -/
theorem claim_C9_counterexample :
    ¬ ((((initFiltering cfgDup 100).1.Filters ++
         (initFiltering cfgDup 100).1.WhitelistFilters).map filter.ID).Pairwise
        (fun a b => a ≠ b)) := by
  decide

def cfgC9 : Config :=
  ⟨[{ Enabled := false, URL := "a", Name := [], RulesCount := 0, LastUpdated := 0,
      checksum := 0, white := false, ID := 0 },
    { Enabled := false, URL := "b", Name := [], RulesCount := 0, LastUpdated := 0,
      checksum := 0, white := false, ID := 3 }],
   [{ Enabled := false, URL := "c", Name := [], RulesCount := 0, LastUpdated := 0,
      checksum := 0, white := false, ID := 0 }]⟩

/-- Witness for C9 (amended): with distinct persisted nonzero ids below the
seed, the ids are pairwise distinct across both collections after
initialization. -/
theorem claim_C9_amended_witness :
    ((((initFiltering cfgC9 10).1.Filters ++
       (initFiltering cfgC9 10).1.WhitelistFilters).map filter.ID)).Pairwise
      (fun a b => a ≠ b) :=
  claim_C9_amended cfgC9 10 (by decide) (by decide)

end AdGuard
